import Mathlib

namespace NativeCrypto

/-!
A verification development for the OpenJ9/OpenJDK11 native crypto bridge
(`closed/src/java.base/share/native/libjncrypto/NativeCrypto.c`) and the
AIX pollset selector backend
(`src/java.base/aix/native/libnio/ch/PollsetArrayWrapper.c`).

The C sources are shallowly embedded: pure parsing and arithmetic become
Lean functions over `List Char` / `Nat` / `Int`; calls into the external
OpenSSL library are abstracted by explicit oracle records that carry the
outcome of each delegated call, and each JNI entry point becomes a Lean
function of its inputs and that oracle, mirroring the C control flow.
-/

/-! ## Character classification (C `ctype` model, C locale) -/

/-- C `isspace` for the default locale (used by `sscanf` whitespace skipping). -/
def isSpaceC (c : Char) : Bool :=
  c = ' ' || c = '\t' || c = '\n' || c = '\x0b' || c = '\x0c' || c = '\r'

/-- C `isdigit`. -/
def isDigitC (c : Char) : Bool :=
  '0' ≤ c && c ≤ '9'

/-- C `isalpha` for the default locale. -/
def isAlphaC (c : Char) : Bool :=
  ('a' ≤ c && c ≤ 'z') || ('A' ≤ c && c ≤ 'Z')

/-- C `tolower` for the default locale, returning the character code. -/
def toLowerC (c : Char) : Nat :=
  if 'A' ≤ c && c ≤ 'Z' then c.toNat + 32 else c.toNat

/-! ## A model of `sscanf(astring, "OpenSSL %ld.%ld.%ld%c", ...)`

`sscanf` semantics for the directives appearing in this fixed format:
a literal character must match the next input character exactly; a
whitespace character in the format matches any (possibly empty) run of
whitespace; `%ld` skips whitespace, then reads an optional sign and at
least one digit; `%c` reads exactly one character.  The return value is
the number of successful conversions (we fold the `EOF` case into count
0, which the caller treats identically since it only tests `< 3`). -/

/-- Drop a leading run of whitespace characters. -/
def skipSpaces : List Char → List Char
  | [] => []
  | c :: cs => if isSpaceC c then skipSpaces cs else c :: cs

/-- Consume a maximal run of decimal digits, accumulating their value. -/
def takeDigits : List Char → Nat → Nat × List Char
  | [], acc => (acc, [])
  | c :: cs, acc =>
      if isDigitC c then takeDigits cs (acc * 10 + (c.toNat - '0'.toNat))
      else (acc, c :: cs)

/-- The `%ld` directive: skip whitespace, optional sign, at least one digit.
`none` models a matching/input failure (which stops the scan). -/
def scanLong (s : List Char) : Option (Int × List Char) :=
  match skipSpaces s with
  | [] => none
  | '-' :: rest =>
      match rest with
      | c :: _ =>
          if isDigitC c then
            let p := takeDigits rest 0
            some (-(p.1 : Int), p.2)
          else none
      | [] => none
  | '+' :: rest =>
      match rest with
      | c :: _ =>
          if isDigitC c then
            let p := takeDigits rest 0
            some ((p.1 : Int), p.2)
          else none
      | [] => none
  | c :: cs =>
      if isDigitC c then
        let p := takeDigits (c :: cs) 0
        some ((p.1 : Int), p.2)
      else none

/-- Match a literal character sequence of the format string. -/
def matchLiteral : List Char → List Char → Option (List Char)
  | [], s => some s
  | _ :: _, [] => none
  | l :: ls, c :: cs => if l = c then matchLiteral ls cs else none

/-- Result of the scan: conversion count plus the converted values
(variables keep their C initial values, `0`, when not assigned). -/
structure ScanOut where
  count : Nat
  major : Int := 0
  minor : Int := 0
  fix : Int := 0
  patchChar : Char := Char.ofNat 0
  deriving Repr, DecidableEq

/-- Model of `sscanf(astring, "OpenSSL %ld.%ld.%ld%c", &major, &minor, &fix, &patch_char)`. -/
def scanVersion (s : List Char) : ScanOut :=
  match matchLiteral "OpenSSL".data s with
  | none => { count := 0 }
  | some s1 =>
    match scanLong (skipSpaces s1) with
    | none => { count := 0 }
    | some (ma, s3) =>
      match s3 with
      | '.' :: s4 =>
        match scanLong s4 with
        | none => { count := 1, major := ma }
        | some (mi, s5) =>
          match s5 with
          | '.' :: s6 =>
            match scanLong s6 with
            | none => { count := 2, major := ma, minor := mi }
            | some (fx, s7) =>
              match s7 with
              | c :: _ => { count := 4, major := ma, minor := mi, fix := fx, patchChar := c }
              | [] => { count := 3, major := ma, minor := mi, fix := fx }
          | _ => { count := 2, major := ma, minor := mi }
      | _ => { count := 1, major := ma }

/-! ## Version codes (`OPENSSL_VERSION_CODE`) -/

/-- `#define OPENSSL_VERSION_CODE(major, minor, fix, patch)
      ((((jlong)(major)) << 28) | ((minor) << 20) | ((fix) << 12) | (patch))` -/
def OPENSSL_VERSION_CODE (major minor fix patch : Int) : Int :=
  Int.lor (Int.lor (Int.lor (major <<< (28 : ℤ)) (minor <<< (20 : ℤ))) (fix <<< (12 : ℤ))) patch

def OPENSSL_VERSION_1_0_0 : Int := OPENSSL_VERSION_CODE 1 0 0 0

def OPENSSL_VERSION_1_1_0 : Int := OPENSSL_VERSION_CODE 1 1 0 0

def OPENSSL_VERSION_1_1_1 : Int := OPENSSL_VERSION_CODE 1 1 1 0

def OPENSSL_VERSION_2_0_0 : Int := OPENSSL_VERSION_CODE 2 0 0 0

def OPENSSL_VERSION_3_0_0 : Int := OPENSSL_VERSION_CODE 3 0 0 0

def OPENSSL_VERSION_4_0_0 : Int := OPENSSL_VERSION_CODE 4 0 0 0

/-- The patch number computed from the `%c`-scanned character:
`if (isalpha(patch_char)) patch = tolower(patch_char) - 'a' + 1;`. -/
def patchOfChar (c : Char) : Int :=
  if isAlphaC c then (toLowerC c : Int) - ('a'.toNat : Int) + 1 else 0

/-- `static jlong extractVersionToJlong(const char *astring)`. -/
def extractVersionToJlong (s : List Char) : Int :=
  let o := scanVersion s
  if o.count < 3 then -1
  else OPENSSL_VERSION_CODE o.major o.minor o.fix (patchOfChar o.patchChar)

/-! ## Model of a probed crypto library

A loaded shared library is abstracted by which symbols `find_crypto_symbol`
resolves in it, the version strings its version functions return, and the
answers of its FIPS query functions. -/

structure CryptoLib where
  /-- Whether `find_crypto_symbol(handle, name)` returns non-NULL. -/
  sym : String → Bool
  /-- The string returned by `OpenSSL_version(0)` (used when that symbol resolves). -/
  opensslVersionStr : List Char
  /-- The string returned by `SSLeay_version(0)` (used when that symbol resolves). -/
  ssleayVersionStr : List Char
  /-- Whether `EVP_default_properties_is_fips_enabled(NULL)` returns 1. -/
  fips3Enabled : Bool
  /-- Whether `FIPS_mode()` returns 1. -/
  fipsModeEnabled : Bool

/-- Result of `get_crypto_library_version`: the returned `jlong`, whether
`unload_crypto_library` was called, and the value written to the global
`OSSL_IS_FIPS` (`none` when the global is left untouched). -/
structure VersionResult where
  ver : Int
  unloaded : Bool
  fips : Option Bool
  deriving Repr, DecidableEq

/-- The FIPS-mode probe performed after the version is accepted
(lines 560-577 of `NativeCrypto.c`). -/
def fipsProbe (L : CryptoLib) (ossl_ver : Int) : Bool :=
  if OPENSSL_VERSION_3_0_0 ≤ ossl_ver then
    L.sym "EVP_default_properties_is_fips_enabled" && L.fips3Enabled
  else
    L.sym "FIPS_mode" && L.fipsModeEnabled

/-- `static jlong get_crypto_library_version(jboolean, void *, const char *)`.
`OpenSSL_version` is probed first; only when it is absent is
`SSLeay_version` probed, and each path enforces its own version window. -/
def get_crypto_library_version (L : CryptoLib) : VersionResult :=
  if L.sym "OpenSSL_version" then
    let ossl_ver := extractVersionToJlong L.opensslVersionStr
    if ¬ ((OPENSSL_VERSION_1_1_0 ≤ ossl_ver ∧ ossl_ver < OPENSSL_VERSION_2_0_0)
        ∨ (OPENSSL_VERSION_3_0_0 ≤ ossl_ver ∧ ossl_ver < OPENSSL_VERSION_4_0_0)) then
      { ver := -1, unloaded := true, fips := none }
    else
      { ver := ossl_ver, unloaded := false, fips := some (fipsProbe L ossl_ver) }
  else if L.sym "SSLeay_version" then
    let ossl_ver := extractVersionToJlong L.ssleayVersionStr
    if ¬ (OPENSSL_VERSION_1_0_0 ≤ ossl_ver ∧ ossl_ver < OPENSSL_VERSION_1_1_0) then
      { ver := -1, unloaded := true, fips := none }
    else
      { ver := ossl_ver, unloaded := false, fips := some (fipsProbe L ossl_ver) }
  else
    { ver := -1, unloaded := true, fips := none }

/-- A concrete application of `spec_C1`: a library exposing every symbol
whose `OpenSSL_version(0)` string is an OpenSSL 3 version is accepted. -/
def demoLib3 : CryptoLib :=
  ⟨fun _ => true, "OpenSSL 3.0.13 30 Jan 2024".data, [], false, false⟩

/-! ## The symbol-binding phase of `loadCrypto`

`Java_jdk_crypto_jniprovider_NativeCrypto_loadCrypto` (from line 865 on)
resolves every function pointer from the loaded library, conditionally on
the detected version, then fails if any required pointer is `NULL`.
Each pointer is modelled by a `Bool` recording whether it is non-NULL. -/

structure Pointers where
  errorStringN : Bool
  errorString : Bool
  getError : Bool
  numLocks : Bool
  threadidSetNumeric : Bool
  opensslMalloc : Bool
  opensslFree : Bool
  threadidSetCallback : Bool
  setLockingCallback : Bool
  md5 : Bool
  sha1 : Bool
  sha256 : Bool
  sha224 : Bool
  sha384 : Bool
  sha512 : Bool
  mdCtxNew : Bool
  mdCtxReset : Bool
  mdCtxFree : Bool
  digestInit : Bool
  mdCtxCopy : Bool
  digestUpdate : Bool
  digestFinal : Bool
  cipherCtxNew : Bool
  cipherCtxFree : Bool
  aes128cbc : Bool
  aes192cbc : Bool
  aes256cbc : Bool
  cipherInit : Bool
  cipherCtxSetPadding : Bool
  cipherUpdate : Bool
  cipherFinal : Bool
  aes128gcm : Bool
  aes192gcm : Bool
  aes256gcm : Bool
  cipherCtxCtrl : Bool
  decryptInit : Bool
  decryptUpdate : Bool
  decryptFinal : Bool
  chacha20 : Bool
  chachaPoly : Bool
  rsaNew : Bool
  rsaSet0Key : Bool
  rsaSet0Factors : Bool
  rsaSet0CrtParams : Bool
  rsaFree : Bool
  rsaPublicDecrypt : Bool
  rsaPrivateEncrypt : Bool
  bnNew : Bool
  bnBin2bn : Bool
  bnSetNegative : Bool
  bnFree : Bool
  bnBn2bin : Bool
  bnNumBits : Bool
  ecKeyGenerateKey : Bool
  ecKeyFree : Bool
  ecdhComputeKey : Bool
  ecKeyGet0PublicKey : Bool
  ecKeyGet0PrivateKey : Bool
  ecKeyNew : Bool
  ecKeySetPubAffine : Bool
  ecKeySetPrivateKey : Bool
  bnCtxNew : Bool
  ecGroupNewCurveGFp : Bool
  ecGroupNewCurveGF2m : Bool
  ecKeySetGroup : Bool
  ecPointNew : Bool
  ecGroupSetGenerator : Bool
  ecKeyGet0Group : Bool
  ecPointFree : Bool
  ecGroupFree : Bool
  bnCtxFree : Bool
  ecKeySetPublicKey : Bool
  ecKeyCheckKey : Bool
  ecPointSetAffineGFp : Bool
  ecPointSetAffineGF2m : Bool
  ecPointGetAffineGFp : Bool
  ecPointGetAffineGF2m : Bool
  evpPkeyCtxNew : Bool
  evpPkeyCtxNewId : Bool
  evpPkeyKeygenInit : Bool
  evpPkeyKeygen : Bool
  evpPkeyCtxFree : Bool
  evpPkeyGetRawPrivateKey : Bool
  evpPkeyGetRawPublicKey : Bool
  evpPkeyNewRawPrivateKey : Bool
  evpPkeyNewRawPublicKey : Bool
  evpPkeyDeriveInit : Bool
  evpPkeyDeriveSetPeer : Bool
  evpPkeyDerive : Bool
  evpPkeyFree : Bool
  ecdsaDoSign : Bool
  ecdsaDoVerify : Bool
  ecdsaSigNew : Bool
  ecdsaSigFree : Bool
  ecdsaSigGet0R : Bool
  ecdsaSigGet0S : Bool
  ecdsaSigSet0 : Bool
  pkcs12KeyGen : Bool

/-- The pointer-binding section of `loadCrypto` (lines 868-1058): every
assignment of an `OSSL_*` function pointer, with its version conditions,
fallback lookups, and the 1.0.2 compatibility-shim assignments (which are
addresses of static functions, hence never `NULL`). -/
def resolveSymbols (L : CryptoLib) (v : Int) : Pointers where
  errorStringN := L.sym "ERR_error_string_n"
  errorString := L.sym "ERR_error_string"
  getError := L.sym "ERR_get_error"
  numLocks := decide (v < OPENSSL_VERSION_1_1_0) && L.sym "CRYPTO_num_locks"
  threadidSetNumeric := decide (v < OPENSSL_VERSION_1_1_0) && L.sym "CRYPTO_THREADID_set_numeric"
  opensslMalloc := decide (v < OPENSSL_VERSION_1_1_0) && L.sym "CRYPTO_malloc"
  opensslFree := decide (v < OPENSSL_VERSION_1_1_0) && L.sym "CRYPTO_free"
  threadidSetCallback := decide (v < OPENSSL_VERSION_1_1_0) && L.sym "CRYPTO_THREADID_set_callback"
  setLockingCallback := decide (v < OPENSSL_VERSION_1_1_0) && L.sym "CRYPTO_set_locking_callback"
  md5 := L.sym "EVP_md5"
  sha1 := L.sym "EVP_sha1"
  sha256 := L.sym "EVP_sha256"
  sha224 := L.sym "EVP_sha224"
  sha384 := L.sym "EVP_sha384"
  sha512 := L.sym "EVP_sha512"
  mdCtxNew :=
    if OPENSSL_VERSION_1_1_0 ≤ v then L.sym "EVP_MD_CTX_new" else L.sym "EVP_MD_CTX_create"
  mdCtxReset :=
    if OPENSSL_VERSION_1_1_0 ≤ v then L.sym "EVP_MD_CTX_reset" else L.sym "EVP_MD_CTX_cleanup"
  mdCtxFree :=
    if OPENSSL_VERSION_1_1_0 ≤ v then L.sym "EVP_MD_CTX_free" else L.sym "EVP_MD_CTX_destroy"
  digestInit := L.sym "EVP_DigestInit_ex"
  mdCtxCopy := L.sym "EVP_MD_CTX_copy_ex"
  digestUpdate := L.sym "EVP_DigestUpdate"
  digestFinal := L.sym "EVP_DigestFinal_ex"
  cipherCtxNew := L.sym "EVP_CIPHER_CTX_new"
  cipherCtxFree := L.sym "EVP_CIPHER_CTX_free"
  aes128cbc := L.sym "EVP_aes_128_cbc"
  aes192cbc := L.sym "EVP_aes_192_cbc"
  aes256cbc := L.sym "EVP_aes_256_cbc"
  cipherInit := L.sym "EVP_CipherInit_ex"
  cipherCtxSetPadding := L.sym "EVP_CIPHER_CTX_set_padding"
  cipherUpdate := L.sym "EVP_CipherUpdate"
  cipherFinal := L.sym "EVP_CipherFinal_ex"
  aes128gcm := L.sym "EVP_aes_128_gcm"
  aes192gcm := L.sym "EVP_aes_192_gcm"
  aes256gcm := L.sym "EVP_aes_256_gcm"
  cipherCtxCtrl := L.sym "EVP_CIPHER_CTX_ctrl"
  decryptInit := L.sym "EVP_DecryptInit_ex"
  decryptUpdate := L.sym "EVP_DecryptUpdate"
  decryptFinal := L.sym "EVP_DecryptFinal"
  chacha20 := decide (OPENSSL_VERSION_1_1_0 ≤ v) && L.sym "EVP_chacha20"
  chachaPoly := decide (OPENSSL_VERSION_1_1_0 ≤ v) && L.sym "EVP_chacha20_poly1305"
  rsaNew := L.sym "RSA_new"
  rsaSet0Key := if OPENSSL_VERSION_1_1_0 ≤ v then L.sym "RSA_set0_key" else true
  rsaSet0Factors := if OPENSSL_VERSION_1_1_0 ≤ v then L.sym "RSA_set0_factors" else true
  rsaSet0CrtParams := if OPENSSL_VERSION_1_1_0 ≤ v then L.sym "RSA_set0_crt_params" else true
  rsaFree := L.sym "RSA_free"
  rsaPublicDecrypt := L.sym "RSA_public_decrypt"
  rsaPrivateEncrypt := L.sym "RSA_private_decrypt"
  bnNew := L.sym "BN_new"
  bnBin2bn := L.sym "BN_bin2bn"
  bnSetNegative := L.sym "BN_set_negative"
  bnFree := L.sym "BN_free"
  bnBn2bin := L.sym "BN_bn2bin"
  bnNumBits := L.sym "BN_num_bits"
  ecKeyGenerateKey := L.sym "EC_KEY_generate_key"
  ecKeyFree := L.sym "EC_KEY_free"
  ecdhComputeKey := L.sym "ECDH_compute_key"
  ecKeyGet0PublicKey := L.sym "EC_KEY_get0_public_key"
  ecKeyGet0PrivateKey := L.sym "EC_KEY_get0_private_key"
  ecKeyNew := L.sym "EC_KEY_new"
  ecKeySetPubAffine := L.sym "EC_KEY_set_public_key_affine_coordinates"
  ecKeySetPrivateKey := L.sym "EC_KEY_set_private_key"
  bnCtxNew := L.sym "BN_CTX_new"
  ecGroupNewCurveGFp := L.sym "EC_GROUP_new_curve_GFp"
  ecGroupNewCurveGF2m := L.sym "EC_GROUP_new_curve_GF2m"
  ecKeySetGroup := L.sym "EC_KEY_set_group"
  ecPointNew := L.sym "EC_POINT_new"
  ecGroupSetGenerator := L.sym "EC_GROUP_set_generator"
  ecKeyGet0Group := L.sym "EC_KEY_get0_group"
  ecPointFree := L.sym "EC_POINT_free"
  ecGroupFree := L.sym "EC_GROUP_free"
  bnCtxFree := L.sym "BN_CTX_free"
  ecKeySetPublicKey := L.sym "EC_KEY_set_public_key"
  ecKeyCheckKey := L.sym "EC_KEY_check_key"
  ecPointSetAffineGFp :=
    L.sym "EC_POINT_set_affine_coordinates" || L.sym "EC_POINT_set_affine_coordinates_GFp"
  ecPointSetAffineGF2m :=
    if L.sym "EC_POINT_set_affine_coordinates" then L.sym "EC_POINT_set_affine_coordinates"
    else L.sym "EC_POINT_set_affine_coordinates_GF2m"
  ecPointGetAffineGFp :=
    L.sym "EC_POINT_get_affine_coordinates" || L.sym "EC_POINT_get_affine_coordinates_GFp"
  ecPointGetAffineGF2m :=
    if L.sym "EC_POINT_get_affine_coordinates" then
      L.sym "EC_POINT_get_affine_coordinates" || L.sym "EC_POINT_get_affine_coordinates_GFp"
    else L.sym "EC_POINT_get_affine_coordinates_GF2m"
  evpPkeyCtxNew := decide (OPENSSL_VERSION_1_1_1 ≤ v) && L.sym "EVP_PKEY_CTX_new"
  evpPkeyCtxNewId := decide (OPENSSL_VERSION_1_1_1 ≤ v) && L.sym "EVP_PKEY_CTX_new_id"
  evpPkeyKeygenInit := decide (OPENSSL_VERSION_1_1_1 ≤ v) && L.sym "EVP_PKEY_keygen_init"
  evpPkeyKeygen := decide (OPENSSL_VERSION_1_1_1 ≤ v) && L.sym "EVP_PKEY_keygen"
  evpPkeyCtxFree := decide (OPENSSL_VERSION_1_1_1 ≤ v) && L.sym "EVP_PKEY_CTX_free"
  evpPkeyGetRawPrivateKey :=
    decide (OPENSSL_VERSION_1_1_1 ≤ v) && L.sym "EVP_PKEY_get_raw_private_key"
  evpPkeyGetRawPublicKey :=
    decide (OPENSSL_VERSION_1_1_1 ≤ v) && L.sym "EVP_PKEY_get_raw_public_key"
  evpPkeyNewRawPrivateKey :=
    decide (OPENSSL_VERSION_1_1_1 ≤ v) && L.sym "EVP_PKEY_new_raw_private_key"
  evpPkeyNewRawPublicKey :=
    decide (OPENSSL_VERSION_1_1_1 ≤ v) && L.sym "EVP_PKEY_new_raw_public_key"
  evpPkeyDeriveInit := decide (OPENSSL_VERSION_1_1_1 ≤ v) && L.sym "EVP_PKEY_derive_init"
  evpPkeyDeriveSetPeer := decide (OPENSSL_VERSION_1_1_1 ≤ v) && L.sym "EVP_PKEY_derive_set_peer"
  evpPkeyDerive := decide (OPENSSL_VERSION_1_1_1 ≤ v) && L.sym "EVP_PKEY_derive"
  evpPkeyFree := decide (OPENSSL_VERSION_1_1_1 ≤ v) && L.sym "EVP_PKEY_free"
  ecdsaDoSign := decide (OPENSSL_VERSION_1_1_1 ≤ v) && L.sym "ECDSA_do_sign"
  ecdsaDoVerify := decide (OPENSSL_VERSION_1_1_1 ≤ v) && L.sym "ECDSA_do_verify"
  ecdsaSigNew := decide (OPENSSL_VERSION_1_1_1 ≤ v) && L.sym "ECDSA_SIG_new"
  ecdsaSigFree := decide (OPENSSL_VERSION_1_1_1 ≤ v) && L.sym "ECDSA_SIG_free"
  ecdsaSigGet0R := decide (OPENSSL_VERSION_1_1_1 ≤ v) && L.sym "ECDSA_SIG_get0_r"
  ecdsaSigGet0S := decide (OPENSSL_VERSION_1_1_1 ≤ v) && L.sym "ECDSA_SIG_get0_s"
  ecdsaSigSet0 := decide (OPENSSL_VERSION_1_1_1 ≤ v) && L.sym "ECDSA_SIG_set0"
  pkcs12KeyGen := L.sym "PKCS12_key_gen_uni"

/-- The big `NULL`-check of `loadCrypto` (lines 1060-1156), in source order. -/
def missingSymbol (P : Pointers) (v : Int) : Bool :=
  !P.errorString || !P.errorStringN || !P.getError ||
  !P.sha1 || !P.sha256 || !P.sha224 || !P.sha384 || !P.sha512 ||
  !P.mdCtxNew || !P.mdCtxReset || !P.mdCtxFree ||
  !P.digestInit || !P.mdCtxCopy || !P.digestUpdate || !P.digestFinal ||
  !P.cipherCtxNew || !P.cipherCtxFree ||
  !P.aes128cbc || !P.aes192cbc || !P.aes256cbc ||
  !P.cipherInit || !P.cipherCtxSetPadding || !P.cipherUpdate || !P.cipherFinal ||
  !P.aes128gcm || !P.aes192gcm || !P.aes256gcm ||
  !P.cipherCtxCtrl || !P.decryptInit || !P.decryptUpdate || !P.decryptFinal ||
  !P.rsaNew || !P.rsaSet0Key || !P.rsaSet0Factors || !P.rsaSet0CrtParams ||
  !P.rsaFree || !P.rsaPublicDecrypt || !P.rsaPrivateEncrypt ||
  !P.bnNew || !P.bnBin2bn || !P.bnSetNegative || !P.bnFree || !P.bnBn2bin || !P.bnNumBits ||
  !P.ecKeyGenerateKey || !P.ecKeyFree || !P.ecdhComputeKey ||
  !P.ecKeyGet0PublicKey || !P.ecKeyGet0PrivateKey || !P.ecKeyNew ||
  !P.ecKeySetPrivateKey || !P.bnCtxNew || !P.ecGroupNewCurveGFp ||
  !P.ecKeySetGroup || !P.ecPointNew ||
  !P.ecPointSetAffineGFp || !P.ecPointGetAffineGFp ||
  !P.ecGroupSetGenerator || !P.ecKeyGet0Group || !P.ecPointFree || !P.ecGroupFree ||
  !P.bnCtxFree || !P.ecKeySetPublicKey || !P.ecKeyCheckKey ||
  !P.pkcs12KeyGen ||
  (decide (OPENSSL_VERSION_1_1_1 ≤ v) &&
    (!P.evpPkeyGetRawPrivateKey || !P.evpPkeyGetRawPublicKey ||
     !P.evpPkeyNewRawPrivateKey || !P.evpPkeyNewRawPublicKey ||
     !P.evpPkeyCtxNew || !P.evpPkeyCtxNewId ||
     !P.evpPkeyKeygenInit || !P.evpPkeyKeygen || !P.evpPkeyCtxFree ||
     !P.evpPkeyDeriveInit || !P.evpPkeyDeriveSetPeer || !P.evpPkeyDerive || !P.evpPkeyFree ||
     !P.ecdsaDoSign || !P.ecdsaDoVerify || !P.ecdsaSigNew || !P.ecdsaSigFree ||
     !P.ecdsaSigGet0R || !P.ecdsaSigGet0S || !P.ecdsaSigSet0)) ||
  (decide (OPENSSL_VERSION_1_1_0 ≤ v) && (!P.chacha20 || !P.chachaPoly)) ||
  (!P.numLocks && decide (v < OPENSSL_VERSION_1_1_0)) ||
  (!P.threadidSetNumeric && decide (v < OPENSSL_VERSION_1_1_0)) ||
  (!P.opensslMalloc && decide (v < OPENSSL_VERSION_1_1_0)) ||
  (!P.opensslFree && decide (v < OPENSSL_VERSION_1_1_0)) ||
  (!P.threadidSetCallback && decide (v < OPENSSL_VERSION_1_1_0)) ||
  (!P.setLockingCallback && decide (v < OPENSSL_VERSION_1_1_0))

/-- The symbols the spec describes as unconditionally required: the
error-reporting entry points and the base digest/CBC/GCM/RSA/BIGNUM/EC/PBE
function pointers, in the order of the source's check. -/
def baseResolved (P : Pointers) : Prop :=
  P.errorString = true ∧ P.errorStringN = true ∧ P.getError = true ∧
  P.sha1 = true ∧ P.sha256 = true ∧ P.sha224 = true ∧ P.sha384 = true ∧ P.sha512 = true ∧
  P.mdCtxNew = true ∧ P.mdCtxReset = true ∧ P.mdCtxFree = true ∧
  P.digestInit = true ∧ P.mdCtxCopy = true ∧ P.digestUpdate = true ∧ P.digestFinal = true ∧
  P.cipherCtxNew = true ∧ P.cipherCtxFree = true ∧
  P.aes128cbc = true ∧ P.aes192cbc = true ∧ P.aes256cbc = true ∧
  P.cipherInit = true ∧ P.cipherCtxSetPadding = true ∧ P.cipherUpdate = true ∧
  P.cipherFinal = true ∧
  P.aes128gcm = true ∧ P.aes192gcm = true ∧ P.aes256gcm = true ∧
  P.cipherCtxCtrl = true ∧ P.decryptInit = true ∧ P.decryptUpdate = true ∧
  P.decryptFinal = true ∧
  P.rsaNew = true ∧ P.rsaSet0Key = true ∧ P.rsaSet0Factors = true ∧
  P.rsaSet0CrtParams = true ∧
  P.rsaFree = true ∧ P.rsaPublicDecrypt = true ∧ P.rsaPrivateEncrypt = true ∧
  P.bnNew = true ∧ P.bnBin2bn = true ∧ P.bnSetNegative = true ∧ P.bnFree = true ∧
  P.bnBn2bin = true ∧ P.bnNumBits = true ∧
  P.ecKeyGenerateKey = true ∧ P.ecKeyFree = true ∧ P.ecdhComputeKey = true ∧
  P.ecKeyGet0PublicKey = true ∧ P.ecKeyGet0PrivateKey = true ∧ P.ecKeyNew = true ∧
  P.ecKeySetPrivateKey = true ∧ P.bnCtxNew = true ∧ P.ecGroupNewCurveGFp = true ∧
  P.ecKeySetGroup = true ∧ P.ecPointNew = true ∧
  P.ecPointSetAffineGFp = true ∧ P.ecPointGetAffineGFp = true ∧
  P.ecGroupSetGenerator = true ∧ P.ecKeyGet0Group = true ∧ P.ecPointFree = true ∧
  P.ecGroupFree = true ∧
  P.bnCtxFree = true ∧ P.ecKeySetPublicKey = true ∧ P.ecKeyCheckKey = true ∧
  P.pkcs12KeyGen = true

/-- The XDH and ECDSA symbols, required only for versions `≥ 1.1.1`. -/
def xdhEcdsaResolved (P : Pointers) : Prop :=
  P.evpPkeyGetRawPrivateKey = true ∧ P.evpPkeyGetRawPublicKey = true ∧
  P.evpPkeyNewRawPrivateKey = true ∧ P.evpPkeyNewRawPublicKey = true ∧
  P.evpPkeyCtxNew = true ∧ P.evpPkeyCtxNewId = true ∧
  P.evpPkeyKeygenInit = true ∧ P.evpPkeyKeygen = true ∧ P.evpPkeyCtxFree = true ∧
  P.evpPkeyDeriveInit = true ∧ P.evpPkeyDeriveSetPeer = true ∧ P.evpPkeyDerive = true ∧
  P.evpPkeyFree = true ∧
  P.ecdsaDoSign = true ∧ P.ecdsaDoVerify = true ∧ P.ecdsaSigNew = true ∧
  P.ecdsaSigFree = true ∧
  P.ecdsaSigGet0R = true ∧ P.ecdsaSigGet0S = true ∧ P.ecdsaSigSet0 = true

/-- The ChaCha20 symbols, required only for versions `≥ 1.1.0`. -/
def chachaResolved (P : Pointers) : Prop :=
  P.chacha20 = true ∧ P.chachaPoly = true

/-- The legacy `CRYPTO` locking-callback symbols, required only for
versions `< 1.1.0`. -/
def lockingResolved (P : Pointers) : Prop :=
  P.numLocks = true ∧ P.threadidSetNumeric = true ∧ P.opensslMalloc = true ∧
  P.opensslFree = true ∧ P.threadidSetCallback = true ∧ P.setLockingCallback = true

/-- The claim's version-conditional required set: base symbols always,
ChaCha20 for `v ≥ 1.1.0`, XDH/ECDSA for `v ≥ 1.1.1`, locking callbacks
for `v < 1.1.0`. -/
def requiredSymbolsResolved (P : Pointers) (v : Int) : Prop :=
  baseResolved P ∧
  (OPENSSL_VERSION_1_1_1 ≤ v → xdhEcdsaResolved P) ∧
  (OPENSSL_VERSION_1_1_0 ≤ v → chachaResolved P) ∧
  (v < OPENSSL_VERSION_1_1_0 → lockingResolved P)

/-- Result of the `loadCrypto` phase that starts from a loaded library
handle (line 865 on): the returned `jlong` and whether the library ended
up unloaded. -/
structure LoadResult where
  ret : Int
  unloaded : Bool
  deriving Repr, DecidableEq

/-- `Java_jdk_crypto_jniprovider_NativeCrypto_loadCrypto` from the point
where a crypto library has been loaded (line 865): detect the version,
bind all symbols, fail and unload when a required pointer is `NULL`, run
`thread_setup` for pre-1.1.0 versions, and otherwise return the version.
`threadSetupOk` abstracts whether `thread_setup()` returns 0. -/
def loadCryptoWithLibrary (L : CryptoLib) (threadSetupOk : Bool) : LoadResult :=
  let vr := get_crypto_library_version L
  let P := resolveSymbols L vr.ver
  if missingSymbol P vr.ver then ⟨-1, true⟩
  else if vr.ver < OPENSSL_VERSION_1_1_0 ∧ threadSetupOk = false then ⟨-1, true⟩
  else ⟨vr.ver, vr.unloaded⟩

/-- A library resolving every symbol except `OpenSSL_version`, whose
`SSLeay_version(0)` reports OpenSSL 1.0.2k. -/
def lib102 : CryptoLib :=
  ⟨fun s => !(s == "OpenSSL_version"), [], "OpenSSL 1.0.2k".data, false, false⟩

/-! ## Digest contexts

`EVP_MD_CTX` objects are abstracted by the algorithm they were initialized
for and the data absorbed so far; `EVP_MD_CTX_copy_ex` duplicates that
state.  Each JNI entry point takes an oracle recording the outcome of every
delegated library call. -/

inductive DigestAlg
  | md5
  | sha1
  | sha224
  | sha256
  | sha384
  | sha512
  deriving Repr, DecidableEq

/-- Abstract state of an initialized `EVP_MD_CTX`. -/
structure MDState where
  alg : DigestAlg
  absorbed : List Nat
  deriving Repr, DecidableEq

/-- The state `EVP_DigestInit_ex` produces. -/
def initMD (a : DigestAlg) : MDState := ⟨a, []⟩

/-- The state after `EVP_DigestUpdate` absorbs `msg`. -/
def absorbMD (s : MDState) (msg : List Nat) : MDState := ⟨s.alg, s.absorbed ++ msg⟩

/-- `struct OpenSSLMDContext`: the working context, the chosen algorithm,
and the cached pre-initialized context used for fast reset. -/
structure OpenSSLMDContext where
  ctx : Option MDState
  digestAlg : DigestAlg
  cachedInitializedDigestContext : Option MDState
  deriving Repr, DecidableEq

/-- Outcomes of the delegated calls made by `DigestCreateContext`. -/
structure DigestCreateCalls where
  mdCtxNewOk : Bool
  digestInitOk : Bool
  mallocOk : Bool
  cachedCtxNewOk : Bool
  copyToCacheOk : Bool
  copyFromSourceOk : Bool
  contextAddr : Int
  deriving Repr, DecidableEq

/-- `Java_jdk_crypto_jniprovider_NativeCrypto_DigestCreateContext`.
Returns the `jlong` result (the context address, or `-1`) together with
the created context, mirroring the C control flow including the
`releaseContexts` failure exits.  `algo` is `none` for an unknown
`algoIdx` (the `switch` default). -/
def DigestCreateContext (o : DigestCreateCalls) (copyContext : Option OpenSSLMDContext)
    (algo : Option DigestAlg) : Int × Option OpenSSLMDContext :=
  match algo with
  | none => (-1, none)
  | some alg =>
    if !o.mdCtxNewOk then (-1, none)
    else if !o.digestInitOk then (-1, none)
    else if !o.mallocOk then (-1, none)
    else if !o.cachedCtxNewOk then (-1, none)
    else if !o.copyToCacheOk then (-1, none)
    else
      match copyContext with
      | none => (o.contextAddr, some ⟨some (initMD alg), alg, some (initMD alg)⟩)
      | some cc =>
        match cc.ctx with
        | none => (-1, none)
        | some src =>
          if o.copyFromSourceOk then (o.contextAddr, some ⟨some src, alg, some (initMD alg)⟩)
          else (-1, none)

/-- `Java_jdk_crypto_jniprovider_NativeCrypto_DigestDestroyContext`. -/
def DigestDestroyContext (c : Option OpenSSLMDContext) : Int :=
  match c with
  | none => -1
  | some _ => 0

/-- `Java_jdk_crypto_jniprovider_NativeCrypto_DigestUpdate`: `getMsgOk` is
the outcome of `GetPrimitiveArrayCritical`, `updOk` whether
`EVP_DigestUpdate` returned 1. -/
def DigestUpdate (getMsgOk updOk : Bool) (c : Option OpenSSLMDContext)
    (message : Option (List Nat)) : Int × Option OpenSSLMDContext :=
  match c with
  | none => (-1, none)
  | some ctx =>
    match message with
    | none => (-1, some ctx)
    | some msg =>
      if !getMsgOk then (-1, some ctx)
      else if !updOk then (-1, some ctx)
      else (0, some ⟨ctx.ctx.map (fun s => absorbMD s msg), ctx.digestAlg,
        ctx.cachedInitializedDigestContext⟩)

/-- `Java_jdk_crypto_jniprovider_NativeCrypto_DigestReset`: on a
successful `EVP_MD_CTX_copy_ex` the cached initialized context is copied
over the working context; on failure both contexts are freed and nulled. -/
def DigestReset (copyOk : Bool) (c : Option OpenSSLMDContext) : Int × Option OpenSSLMDContext :=
  match c with
  | none => (-1, none)
  | some ctx =>
    match ctx.ctx, ctx.cachedInitializedDigestContext with
    | some _, some cached =>
      if copyOk then (0, some ⟨some cached, ctx.digestAlg, some cached⟩)
      else (-1, some ⟨none, ctx.digestAlg, none⟩)
    | _, _ => (-1, some ctx)

/-- Outcomes of the delegated calls made by `DigestComputeAndReset`. -/
structure DigestComputeCalls where
  getMsgOk : Bool
  updOk : Bool
  getDigestOk : Bool
  finalOk : Bool
  finalSize : Int
  copyOk : Bool
  deriving Repr, DecidableEq

/-- `Java_jdk_crypto_jniprovider_NativeCrypto_DigestComputeAndReset`:
update with the optional message, finalize the digest, then restore the
working context from the cached initialized context. -/
def DigestComputeAndReset (o : DigestComputeCalls) (c : Option OpenSSLMDContext)
    (message : Option (List Nat)) : Int × Option OpenSSLMDContext :=
  match c with
  | none => (-1, none)
  | some ctx =>
    match ctx.ctx, ctx.cachedInitializedDigestContext with
    | some w, some cached =>
      let finish : MDState → Int × Option OpenSSLMDContext := fun w2 =>
        if !o.getDigestOk then (-1, some ⟨some w2, ctx.digestAlg, some cached⟩)
        else if !o.finalOk then (-1, some ⟨some w2, ctx.digestAlg, some cached⟩)
        else if o.copyOk then (o.finalSize, some ⟨some cached, ctx.digestAlg, some cached⟩)
        else (-1, some ⟨none, ctx.digestAlg, none⟩)
      match message with
      | none => finish w
      | some msg =>
        if !o.getMsgOk then (-1, some ctx)
        else if !o.updOk then (-1, some ctx)
        else finish (absorbMD w msg)
    | _, _ => (-1, some ctx)

/-- One fully successful `DigestUpdate` step on a context handle. -/
def stepUpdate (st : OpenSSLMDContext) (msg : List Nat) : OpenSSLMDContext :=
  match (DigestUpdate true true (some st) (some msg)).2 with
  | some st2 => st2
  | none => st

/-! ## Cipher operations -/

/-- Outcomes of the delegated calls made by `GCMDecrypt`, in call order. -/
structure GCMDecryptCalls where
  cipherInitOk : Bool
  setIvLenOk : Bool
  getKeyOk : Bool
  getIvOk : Bool
  keyIvInitOk : Bool
  getAadOk : Bool
  aadUpdateOk : Bool
  getOutOk : Bool
  getInOk : Bool
  updOk : Bool
  updLen : Int
  setTagOk : Bool
  finalRet : Int
  finalLen : Int
  deriving Repr, DecidableEq

/-- `Java_jdk_crypto_jniprovider_NativeCrypto_GCMDecrypt`: `ret` starts at
`-1`, every failed step jumps to `cleanup`, a positive `DecryptFinal`
yields the plaintext length, and a non-positive one yields `-2`. -/
def GCMDecrypt (o : GCMDecryptCalls) (ctxNull newKeyLen newIVLen : Bool)
    (aadLen inLen tagLen : Int) : Int :=
  if ctxNull then -1
  else if newKeyLen = true ∧ o.cipherInitOk = false then -1
  else if newIVLen = true ∧ o.setIvLenOk = false then -1
  else if o.getKeyOk = false then -1
  else if o.getIvOk = false then -1
  else if o.keyIvInitOk = false then -1
  else if 0 < aadLen ∧ o.getAadOk = false then -1
  else if 0 < aadLen ∧ o.aadUpdateOk = false then -1
  else if o.getOutOk = false then -1
  else if 0 < inLen ∧ o.getInOk = false then -1
  else if 0 < inLen - tagLen ∧ o.updOk = false then -1
  else if o.setTagOk = false then -1
  else if 0 < o.finalRet then (if 0 < inLen - tagLen then o.updLen else 0) + o.finalLen
  else -2

/-- All delegated calls of `GCMDecrypt` up to and including
`CIPHER_CTX_ctrl(SET_TAG)` succeed. -/
def gcmPriorOk (o : GCMDecryptCalls) (newKeyLen newIVLen : Bool)
    (aadLen inLen tagLen : Int) : Prop :=
  (newKeyLen = true → o.cipherInitOk = true) ∧
  (newIVLen = true → o.setIvLenOk = true) ∧
  o.getKeyOk = true ∧ o.getIvOk = true ∧ o.keyIvInitOk = true ∧
  (0 < aadLen → o.getAadOk = true ∧ o.aadUpdateOk = true) ∧
  o.getOutOk = true ∧
  (0 < inLen → o.getInOk = true) ∧
  (0 < inLen - tagLen → o.updOk = true) ∧
  o.setTagOk = true

/-- Outcomes of the delegated calls made by `CBCInit`.  `setPaddingRet`
records the return value of `EVP_CIPHER_CTX_set_padding`, which the C
code discards. -/
structure CBCInitCalls where
  getIvOk : Bool
  getKeyOk : Bool
  cipherInitOk : Bool
  setPaddingRet : Int
  deriving Repr, DecidableEq

/-- `Java_jdk_crypto_jniprovider_NativeCrypto_CBCInit`: the second
component records whether `EVP_CIPHER_CTX_set_padding` was invoked (it is
called on the non-reset path after a successful `CipherInit_ex`, and its
return value is ignored). -/
def CBCInit (o : CBCInitCalls) (ctxNull doReset : Bool) : Int × Bool :=
  if ctxNull then (-1, false)
  else if o.getIvOk = false then (-1, false)
  else if o.getKeyOk = false then (-1, false)
  else if o.cipherInitOk = false then (-1, false)
  else (0, !doReset)

/-! ## RSA operations -/

/-- Outcomes of the delegated calls made by `RSAEP`. -/
structure RSAEPCalls where
  getKOk : Bool
  getMOk : Bool
  pubDecryptRet : Int
  deriving Repr, DecidableEq

/-- `Java_jdk_crypto_jniprovider_NativeCrypto_RSAEP`: the key handle is
cast and handed to `RSA_public_decrypt` with no `NULL` check; the second
component records whether that library call was made. -/
def RSAEP (o : RSAEPCalls) (publicRSAKey : Option Unit) : Int × Bool :=
  if o.getKOk = false then (-1, false)
  else if o.getMOk = false then (-1, false)
  else (o.pubDecryptRet, true)

/-- `Java_jdk_crypto_jniprovider_NativeCrypto_destroyRSAKey`: returns
whether `RSA_free` was called (the handle is checked against `NULL`). -/
def destroyRSAKey (rsaKey : Option Unit) : Bool :=
  rsaKey.isSome

/-- `Java_jdk_crypto_jniprovider_NativeCrypto_DestroyContext` (cipher
context destruction). -/
def DestroyContext (ctxNull : Bool) : Int :=
  if ctxNull then -1 else 0

/-! ## `thread_setup` and the locking callback (OpenSSL 1.0.2 shim) -/

/-- `#define CRYPTO_LOCK 1` -/
def CRYPTO_LOCK : Int := 1

/-- Outcomes of the delegated calls in `thread_setup`: the lock count
reported by `CRYPTO_num_locks`, whether `OPENSSL_malloc` succeeds, and
whether `pthread_mutex_init` succeeds for each slot. -/
structure ThreadSetupCalls where
  lockNum : Int
  mallocOk : Bool
  initOk : Nat → Bool

/-- Final state of `thread_setup`: its return value, the number of
mutexes held by `lock_cs` (`none` when `lock_cs` is `NULL`), how many
already-created mutexes were destroyed during failure cleanup, and
whether the `CRYPTO` callbacks were installed. -/
structure ThreadSetupResult where
  ret : Int
  lockArray : Option Nat
  destroyed : Nat
  callbacksInstalled : Bool
  deriving Repr, DecidableEq

/-- The `for (i = 0; i < lockNum; i++)` initialization loop: returns the
first slot whose `pthread_mutex_init` fails, if any, scanning `k` slots
starting at `i`. -/
def setupLoop (initOk : Nat → Bool) : Nat → Nat → Option Nat
  | _, 0 => none
  | i, k + 1 => if initOk i then setupLoop initOk (i + 1) k else some i

/-- `static int thread_setup()` (pthread variant): allocate the mutex
array, initialize one mutex per slot, destroy the already-created ones
and free the array on any failure, install the callbacks on success. -/
def thread_setup (o : ThreadSetupCalls) : ThreadSetupResult :=
  if o.mallocOk = false then ⟨-1, none, 0, false⟩
  else
    match setupLoop o.initOk 0 o.lockNum.toNat with
    | some i => ⟨-1, none, i, false⟩
    | none => ⟨0, some o.lockNum.toNat, 0, true⟩

/-- What `pthreads_locking_callback` does with the slot's mutex. -/
inductive LockAction
  | lock (slot : Int)
  | unlock (slot : Int)
  deriving Repr, DecidableEq

/-- `static void pthreads_locking_callback(int mode, int type, ...)`:
acquire `lock_cs[type]` when `mode & CRYPTO_LOCK` is set, release it
otherwise. -/
def pthreads_locking_callback (mode : Int) (slotType : Int) : LockAction :=
  if Int.land mode CRYPTO_LOCK ≠ 0 then LockAction.lock slotType
  else LockAction.unlock slotType

end NativeCrypto

namespace PollsetArrayWrapper

/-! ## `PollsetArrayWrapper.c`: the `RESTARTABLE` macro and `pollsetBulkCtl`

A delegated syscall's outcome is its return value plus whether `errno`
was `EINTR`; a list of outcomes feeds consecutive invocations of the
wrapped call. -/

structure CallOutcome where
  res : Int
  isEINTR : Bool
  deriving Repr, DecidableEq

/-- `#define RESTARTABLE(_cmd, _result) do { do { _result = _cmd; }
while((_result == -1) && (errno == EINTR)); } while(0)`.
Returns the final `_result` and the number of times `_cmd` was issued
(`none` when the supplied outcomes run out, i.e. the loop would continue). -/
def RESTARTABLE : List CallOutcome → Option (Int × Nat)
  | [] => none
  | o :: rest =>
      if o.res = -1 ∧ o.isEINTR = true then
        match RESTARTABLE rest with
        | none => none
        | some (r, n) => some (r, n + 1)
      else some (o.res, 1)

/-- The `while (count > 0)` loop of
`Java_sun_nio_ch_PollsetArrayWrapper_pollsetBulkCtl`: a 0 return breaks;
a `-1` with `EINTR` retries the same call; a `-1` otherwise skips the
problem element (`count--`); a positive return `r` skips `r + 1`
elements.  Returns the final `res` and the number of `pollset_ctl`
invocations. -/
def bulkCtlLoop : List CallOutcome → Int → Int → Option (Int × Nat)
  | [], count, res => if count ≤ 0 then some (res, 0) else none
  | o :: rest, count, res =>
      if count ≤ 0 then some (res, 0)
      else if o.res = 0 then some (0, 1)
      else if o.res = -1 then
        if o.isEINTR then Option.map (fun p => (p.1, p.2 + 1)) (bulkCtlLoop rest count o.res)
        else Option.map (fun p => (p.1, p.2 + 1)) (bulkCtlLoop rest (count - 1) o.res)
      else Option.map (fun p => (p.1, p.2 + 1)) (bulkCtlLoop rest (count - (o.res + 1)) o.res)

/-- `pollsetBulkCtl`'s loop starting from `res = 0`. -/
def pollsetBulkCtl (outs : List CallOutcome) (count : Int) : Option (Int × Nat) :=
  bulkCtlLoop outs count 0

end PollsetArrayWrapper

namespace NativeCrypto

/-- Whether two byte buffers differ at some index below `n`
(the early-exit comparison loops of `RSADP`). -/
def bytesDiffer (a b : Nat → Nat) (n : Nat) : Bool :=
  (List.range n).any (fun i => a i != b i)

/-- Outcomes of the delegated calls made by `RSADP`: the two
`GetPrimitiveArrayCritical` calls, `RSA_private_decrypt`'s return,
`malloc`'s success, `RSA_public_decrypt`'s return, and the re-decrypted
buffer `k2` it fills. -/
structure RSADPCalls where
  getKOk : Bool
  getMOk : Bool
  privRet : Int
  mallocOk : Bool
  pubRet : Int
  k2 : Nat → Nat

/-- The value `msg_len` holds when `RSADP` returns: the private-key
result, possibly overwritten by the verification logic. -/
def rsadpResult (o : RSADPCalls) (k : Nat → Nat) (kLen : Nat) (verify : Int) : Int :=
  if verify ≠ -1 ∧ o.privRet ≠ -1 then
    if verify = (kLen : Int) ∨ verify = (kLen : Int) + 1 then
      if o.mallocOk = true then
        if o.pubRet ≠ -1 then
          if verify = (kLen : Int) + 1 then
            if o.k2 0 ≠ 0 then -2
            else if bytesDiffer k (fun i => o.k2 (i + 1)) kLen = true then -2
            else o.privRet
          else
            if bytesDiffer k o.k2 verify.toNat = true then -2
            else o.privRet
        else -1
      else -1
    else -2
  else o.privRet

/-- `Java_jdk_crypto_jniprovider_NativeCrypto_RSADP`: private-key
operation, then — when `verify != -1` and the private operation did not
fail — re-decryption with the public key and comparison against the
input `k`.  The key handle is passed to the library with no `NULL`
check; the second component records that `RSA_private_decrypt` was
invoked. -/
def RSADP (o : RSADPCalls) (privateRSAKey : Option Unit) (k : Nat → Nat) (kLen : Nat)
    (verify : Int) : Int × Bool :=
  if o.getKOk = false then (-1, false)
  else if o.getMOk = false then (-1, false)
  else (rsadpResult o k kLen verify, true)

/-! ## `convertJavaBItoBN` -/

/-- The value of a big-endian byte buffer (the magnitude `BN_bin2bn`
builds from it). -/
def beValue : List Nat → Nat
  | [] => 0
  | b :: bs => b * 256 ^ bs.length + beValue bs

/-- The in-place negative-to-magnitude transformation of
`convertJavaBItoBN`: walk from the last byte to the first, flip each
byte (`in[i] ^= 0xff`), and add one while the carry persists
(`c = (0 == (++in[i]))`).  Returns the transformed buffer and the
outgoing carry. -/
def negateBytes : List Nat → List Nat × Bool
  | [] => ([], true)
  | b :: bs =>
      let r := negateBytes bs
      let f := b ^^^ 255
      if r.2 then (((f + 1) % 256) :: r.1, ((f + 1) % 256 == 0)) else (f :: r.1, false)

/-- `BIGNUM *convertJavaBItoBN(unsigned char *in, int len)`: extract the
sign from the top bit of `in[0]`, transform the buffer in place to its
magnitude when negative, call `BN_bin2bn` (its success abstracted by
`bin2bnOk`), and set the negative flag.  The result pairs the produced
BIGNUM value (`none` when `BN_bin2bn` fails) with the final buffer. -/
def convertJavaBItoBN (bin2bnOk : Bool) (inBuf : List Nat) : Option Int × List Nat :=
  let neg := (inBuf.headD 0) &&& 128
  let buf := if neg ≠ 0 then (negateBytes inBuf).1 else inBuf
  if bin2bnOk then
    (some (if neg ≠ 0 then -(beValue buf : Int) else (beValue buf : Int)), buf)
  else (none, buf)

/-- The two's-complement value of a big-endian byte buffer. -/
def twosComplementValue (bs : List Nat) : Int :=
  (beValue bs : Int) - (if (bs.headD 0) &&& 128 ≠ 0 then ((256 : Int) ^ bs.length) else 0)

end NativeCrypto


/-- For `b < 2 ^ n`, the bitwise or of `a * 2 ^ n` with `b` is their sum
(the two operands occupy disjoint bit ranges). -/
theorem mul_two_pow_lor_eq_add (a : ℕ) :
    ∀ (n : ℕ) (b : ℕ), b < 2 ^ n → (a * 2 ^ n) ||| b = a * 2 ^ n + b := by
  intro n
  induction n generalizing a with
  | zero =>
      intro b hb
      interval_cases b
      simp
  | succ n ih =>
      intro b hb
      rcases Nat.even_or_odd b with hpar | hpar
      · obtain ⟨q, hq⟩ := hpar
        have hq2 : b = 2 * q := by omega
        have hqlt : q < 2 ^ n := by
          have : 2 ^ (n + 1) = 2 * 2 ^ n := by ring
          omega
        have h1 : a * 2 ^ (n + 1) = Nat.bit false (a * 2 ^ n) := by
          simp [Nat.bit]; ring
        have h2 : b = Nat.bit false q := by simp [Nat.bit]; omega
        rw [h1, h2, Nat.lor_bit, ih a q hqlt]
        simp [Nat.bit]
        ring
      · obtain ⟨q, hq⟩ := hpar
        have hqlt : q < 2 ^ n := by
          have : 2 ^ (n + 1) = 2 * 2 ^ n := by ring
          omega
        have h1 : a * 2 ^ (n + 1) = Nat.bit false (a * 2 ^ n) := by
          simp [Nat.bit]; ring
        have h2 : b = Nat.bit true q := by simp [Nat.bit]; omega
        rw [h1, h2, Nat.lor_bit, ih a q hqlt]
        simp [Nat.bit]
        ring

namespace NativeCrypto

/-- On nonnegative in-range components the version code is the mixed-radix
value `major * 2^28 + minor * 2^20 + fix * 2^12 + patch`. -/
theorem OPENSSL_VERSION_CODE_eq_sum (a b c d : ℕ)
    (hb : b < 2 ^ 8) (hc : c < 2 ^ 8) (hd : d < 2 ^ 12) :
    OPENSSL_VERSION_CODE (a : Int) (b : Int) (c : Int) (d : Int) =
      ((a * 2 ^ 28 + b * 2 ^ 20 + c * 2 ^ 12 + d : ℕ) : Int) := by
  have hsh : ∀ (m k : ℕ), ((m : Int) <<< ((k : ℕ) : ℤ)) = ((m <<< k : ℕ) : Int) :=
    fun m k => Int.shiftLeft_coe_nat m k
  have hlor : ∀ (m n : ℕ), Int.lor (m : Int) (n : Int) = ((m ||| n : ℕ) : Int) := by
    intro m n; rfl
  have h28 : ((28 : ℤ)) = ((28 : ℕ) : ℤ) := by norm_num
  have h20 : ((20 : ℤ)) = ((20 : ℕ) : ℤ) := by norm_num
  have h12 : ((12 : ℤ)) = ((12 : ℕ) : ℤ) := by norm_num
  unfold OPENSSL_VERSION_CODE
  rw [h28, h20, h12, hsh a 28, hsh b 20, hsh c 12, hlor, hlor, hlor]
  norm_cast
  rw [Nat.shiftLeft_eq, Nat.shiftLeft_eq, Nat.shiftLeft_eq]
  have hc12 : c * 2 ^ 12 + d < 2 ^ 20 := by
    have := Nat.mul_le_mul_right (2 ^ 12) (Nat.le_of_lt_succ (Nat.lt_succ_of_lt hc))
    omega
  have hb20 : b * 2 ^ 20 + (c * 2 ^ 12 + d) < 2 ^ 28 := by
    have := Nat.mul_le_mul_right (2 ^ 20) (Nat.le_of_lt_succ (Nat.lt_succ_of_lt hb))
    omega
  rw [Nat.lor_assoc, Nat.lor_assoc,
      mul_two_pow_lor_eq_add c 12 d hd,
      mul_two_pow_lor_eq_add b 20 (c * 2 ^ 12 + d) hc12,
      mul_two_pow_lor_eq_add a 28 (b * 2 ^ 20 + (c * 2 ^ 12 + d)) hb20]
  ring

/-- C9: `extractVersionToJlong` returns `-1` when fewer than three numeric
components parse from `"OpenSSL major.minor.fix"`, and otherwise returns
`(major << 28) | (minor << 20) | (fix << 12) | patch` where `patch` is 0
unless a trailing alphabetic character is present, in which case it is that
character's lowercase alphabet position; for in-range components the codes
order version tuples lexicographically. -/
theorem spec_C9 :
    (∀ s : List Char, (scanVersion s).count < 3 → extractVersionToJlong s = -1) ∧
    (∀ s : List Char, 3 ≤ (scanVersion s).count →
        extractVersionToJlong s =
          OPENSSL_VERSION_CODE (scanVersion s).major (scanVersion s).minor (scanVersion s).fix
            (if isAlphaC (scanVersion s).patchChar
             then (toLowerC (scanVersion s).patchChar : Int) - ('a'.toNat : Int) + 1 else 0)) ∧
    (∀ a₁ b₁ c₁ d₁ a₂ b₂ c₂ d₂ : ℕ,
        b₁ < 256 → c₁ < 256 → d₁ < 4096 → b₂ < 256 → c₂ < 256 → d₂ < 4096 →
        (OPENSSL_VERSION_CODE a₁ b₁ c₁ d₁ < OPENSSL_VERSION_CODE a₂ b₂ c₂ d₂ ↔
          (a₁ < a₂ ∨ (a₁ = a₂ ∧ (b₁ < b₂ ∨ (b₁ = b₂ ∧
            (c₁ < c₂ ∨ (c₁ = c₂ ∧ d₁ < d₂)))))))) := by
  refine ⟨?_, ?_, ?_⟩
  · intro s h
    simp only [extractVersionToJlong, if_pos h]
  · intro s h
    have hlt : ¬ (scanVersion s).count < 3 := Nat.not_lt.mpr h
    simp only [extractVersionToJlong, if_neg hlt, patchOfChar]
  · intro a₁ b₁ c₁ d₁ a₂ b₂ c₂ d₂ hb₁ hc₁ hd₁ hb₂ hc₂ hd₂
    rw [OPENSSL_VERSION_CODE_eq_sum a₁ b₁ c₁ d₁ (by omega) (by omega) (by omega),
        OPENSSL_VERSION_CODE_eq_sum a₂ b₂ c₂ d₂ (by omega) (by omega) (by omega)]
    rw [Nat.cast_lt]
    have h28 : (2 : ℕ) ^ 28 = 268435456 := by norm_num
    have h20 : (2 : ℕ) ^ 20 = 1048576 := by norm_num
    have h12 : (2 : ℕ) ^ 12 = 4096 := by norm_num
    rw [h28, h20, h12]
    omega

/-- A concrete application of `spec_C9`. -/
theorem spec_C9_witness :
    extractVersionToJlong "LibreSSL 2.8.3".data = -1 ∧
    OPENSSL_VERSION_CODE 1 0 2 11 < OPENSSL_VERSION_CODE 1 1 1 0 :=
  ⟨spec_C9.1 "LibreSSL 2.8.3".data (by decide),
   (spec_C9.2.2 1 0 2 11 1 1 1 0 (by decide) (by decide) (by decide)
      (by decide) (by decide) (by decide)).mpr (by omega)⟩

/-- C1: `get_crypto_library_version` accepts the library (positive return and
no unload) exactly when either the `OpenSSL_version` symbol resolves and the
parsed version lies in `[1.1.0, 2.0.0)` or `[3.0.0, 4.0.0)`, or the
`OpenSSL_version` symbol is absent, `SSLeay_version` resolves and the parsed
version lies in `[1.0.0, 1.1.0)`; in the accepting case the returned value is
that parsed version, and in every other case the library is unloaded and the
result is `-1`. -/
theorem spec_C1 (L : CryptoLib) :
    let r := get_crypto_library_version L
    (0 < r.ver ∧ ¬ r.unloaded ↔
      ((L.sym "OpenSSL_version" = true ∧
          ((OPENSSL_VERSION_1_1_0 ≤ extractVersionToJlong L.opensslVersionStr ∧
              extractVersionToJlong L.opensslVersionStr < OPENSSL_VERSION_2_0_0)
            ∨ (OPENSSL_VERSION_3_0_0 ≤ extractVersionToJlong L.opensslVersionStr ∧
              extractVersionToJlong L.opensslVersionStr < OPENSSL_VERSION_4_0_0)))
        ∨ (L.sym "OpenSSL_version" = false ∧ L.sym "SSLeay_version" = true ∧
            OPENSSL_VERSION_1_0_0 ≤ extractVersionToJlong L.ssleayVersionStr ∧
            extractVersionToJlong L.ssleayVersionStr < OPENSSL_VERSION_1_1_0))) ∧
    (0 < r.ver → (r.ver = if L.sym "OpenSSL_version" then extractVersionToJlong L.opensslVersionStr
        else extractVersionToJlong L.ssleayVersionStr)) ∧
    (¬ 0 < r.ver → r.ver = -1 ∧ r.unloaded = true) := by
  intro r
  have h110 : OPENSSL_VERSION_1_1_0 = 269484032 := by decide
  have h100 : OPENSSL_VERSION_1_0_0 = 268435456 := by decide
  have h200 : OPENSSL_VERSION_2_0_0 = 536870912 := by decide
  have h300 : OPENSSL_VERSION_3_0_0 = 805306368 := by decide
  have h400 : OPENSSL_VERSION_4_0_0 = 1073741824 := by decide
  show _ ∧ _ ∧ _
  by_cases hO : L.sym "OpenSSL_version"
  · by_cases hin : (OPENSSL_VERSION_1_1_0 ≤ extractVersionToJlong L.opensslVersionStr ∧
        extractVersionToJlong L.opensslVersionStr < OPENSSL_VERSION_2_0_0)
      ∨ (OPENSSL_VERSION_3_0_0 ≤ extractVersionToJlong L.opensslVersionStr ∧
        extractVersionToJlong L.opensslVersionStr < OPENSSL_VERSION_4_0_0)
    · have hr : r = ⟨extractVersionToJlong L.opensslVersionStr, false,
          some (fipsProbe L (extractVersionToJlong L.opensslVersionStr))⟩ := by
        simp [r, get_crypto_library_version, hO, hin]
      rw [hr]
      refine ⟨?_, ?_, ?_⟩
      · simp only [hO]
        constructor
        · intro _; exact Or.inl ⟨trivial, hin⟩
        · intro _
          simp only [Bool.not_eq_true]
          refine ⟨?_, by simp⟩
          rw [h110, h200, h300, h400] at hin
          omega
      · intro _; simp [hO]
      · intro hneg
        exfalso
        apply hneg
        simp only []
        rw [h110, h200, h300, h400] at hin
        omega
    · have hr : r = { ver := -1, unloaded := true, fips := none } := by
        simp only [r, get_crypto_library_version, hO, if_true, if_neg, hin, not_false_iff,
          if_pos]
      rw [hr]
      refine ⟨?_, ?_, ?_⟩
      · simp only []
        constructor
        · intro h; exact absurd h.1 (by norm_num)
        · intro h
          rcases h with ⟨-, hin2⟩ | ⟨hfalse, -⟩
          · exact absurd hin2 hin
          · rw [hO] at hfalse; cases hfalse
      · intro h; exact absurd h (by norm_num)
      · intro _; exact ⟨rfl, rfl⟩
  · have hO' : L.sym "OpenSSL_version" = false := by simpa using hO
    by_cases hS : L.sym "SSLeay_version"
    · by_cases hin : OPENSSL_VERSION_1_0_0 ≤ extractVersionToJlong L.ssleayVersionStr ∧
          extractVersionToJlong L.ssleayVersionStr < OPENSSL_VERSION_1_1_0
      · have hr : r = ⟨extractVersionToJlong L.ssleayVersionStr, false,
            some (fipsProbe L (extractVersionToJlong L.ssleayVersionStr))⟩ := by
          simp [r, get_crypto_library_version, hO, hS, hin]
        rw [hr]
        refine ⟨?_, ?_, ?_⟩
        · simp only [hO']
          constructor
          · intro _; exact Or.inr ⟨trivial, by simp [hS], hin⟩
          · intro _
            refine ⟨?_, by simp⟩
            rw [h100, h110] at hin
            omega
        · intro _; simp [hO']
        · intro hneg
          exfalso
          apply hneg
          simp only []
          rw [h100, h110] at hin
          omega
      · have hr : r = { ver := -1, unloaded := true, fips := none } := by
          simp [r, get_crypto_library_version, hO, hS, hin]
        rw [hr]
        refine ⟨?_, ?_, ?_⟩
        · simp only [hO']
          constructor
          · intro h; exact absurd h.1 (by norm_num)
          · intro h
            rcases h with ⟨htrue, -⟩ | ⟨-, -, hin2a, hin2b⟩
            · cases htrue
            · exact absurd ⟨hin2a, hin2b⟩ hin
        · intro h; exact absurd h (by norm_num)
        · intro _; exact ⟨rfl, rfl⟩
    · have hS' : L.sym "SSLeay_version" = false := by simpa using hS
      have hr : r = { ver := -1, unloaded := true, fips := none } := by
        simp [r, get_crypto_library_version, hO, hS]
      rw [hr]
      refine ⟨?_, ?_, ?_⟩
      · simp only [hO']
        constructor
        · intro h; exact absurd h.1 (by norm_num)
        · intro h
          rcases h with ⟨htrue, -⟩ | ⟨-, htrue, -⟩
          · cases htrue
          · rw [hS'] at htrue; cases htrue
      · intro h; exact absurd h (by norm_num)
      · intro _; exact ⟨rfl, rfl⟩

theorem spec_C1_witness :
    (get_crypto_library_version demoLib3).ver = 805359616 := by
  have h := (spec_C1 demoLib3).2.1 (by decide)
  rw [h]
  decide

theorem bnot_eq_false (b : Bool) : ((!b) = false) ↔ (b = true) := by
  cases b <;> simp

theorem decide_and_eq_false (c : Prop) [Decidable c] (b : Bool) :
    ((decide c && b) = false) ↔ (c → b = false) := by
  by_cases h : c <;> simp [h]

theorem and_decide_eq_false (c : Prop) [Decidable c] (b : Bool) :
    ((b && decide c) = false) ↔ (c → b = false) := by
  by_cases h : c <;> simp [h]

/-- The source's `NULL`-check is exactly the complement of the claim's
version-conditional required set. -/
theorem missingSymbol_eq_false_iff (P : Pointers) (v : Int) :
    missingSymbol P v = false ↔ requiredSymbolsResolved P v := by
  simp only [missingSymbol, requiredSymbolsResolved, baseResolved, xdhEcdsaResolved,
    chachaResolved, lockingResolved, Bool.or_eq_false_iff, decide_and_eq_false,
    and_decide_eq_false, bnot_eq_false, imp_and, and_assoc]

/-- When `get_crypto_library_version` does not unload the library, the
version it returns is positive. -/
theorem version_pos_of_not_unloaded (L : CryptoLib)
    (h : (get_crypto_library_version L).unloaded = false) :
    0 < (get_crypto_library_version L).ver := by
  have h110 : OPENSSL_VERSION_1_1_0 = 269484032 := by decide
  have h100 : OPENSSL_VERSION_1_0_0 = 268435456 := by decide
  unfold get_crypto_library_version at h ⊢
  by_cases hO : L.sym "OpenSSL_version" = true
  · rw [if_pos hO] at h ⊢
    by_cases hin : (OPENSSL_VERSION_1_1_0 ≤ extractVersionToJlong L.opensslVersionStr ∧
        extractVersionToJlong L.opensslVersionStr < OPENSSL_VERSION_2_0_0)
      ∨ (OPENSSL_VERSION_3_0_0 ≤ extractVersionToJlong L.opensslVersionStr ∧
        extractVersionToJlong L.opensslVersionStr < OPENSSL_VERSION_4_0_0)
    · rw [if_neg (not_not_intro hin)]
      show 0 < extractVersionToJlong L.opensslVersionStr
      have h300 : OPENSSL_VERSION_3_0_0 = 805306368 := by decide
      rw [h110, h300] at hin
      rcases hin with ⟨h1, -⟩ | ⟨h1, -⟩ <;> omega
    · rw [if_pos hin] at h
      cases h
  · rw [if_neg hO] at h ⊢
    by_cases hS : L.sym "SSLeay_version" = true
    · rw [if_pos hS] at h ⊢
      by_cases hin : OPENSSL_VERSION_1_0_0 ≤ extractVersionToJlong L.ssleayVersionStr ∧
          extractVersionToJlong L.ssleayVersionStr < OPENSSL_VERSION_1_1_0
      · rw [if_neg (not_not_intro hin)]
        show 0 < extractVersionToJlong L.ssleayVersionStr
        rw [h100] at hin
        omega
      · rw [if_pos hin] at h
        cases h
    · rw [if_neg hS] at h
      cases h

/-- C2 (amended): once a library is loaded and its version `v` detected,
`loadCrypto` returns `-1` and unloads it if and only if a symbol required
for `v` is unresolved or (`v < 1.1.0` and `thread_setup` fails); when all
required symbols resolve and (`v ≥ 1.1.0` or `thread_setup` succeeds) it
returns `v` with the library still loaded.  The required set is
conditional on `v` as the claim states: base symbols always, ChaCha20 for
`v ≥ 1.1.0`, XDH/ECDSA for `v ≥ 1.1.1`, locking callbacks for `v < 1.1.0`. -/
theorem spec_C2 (L : CryptoLib) (ts : Bool)
    (hdet : (get_crypto_library_version L).unloaded = false) :
    ((loadCryptoWithLibrary L ts).ret = -1 ∧ (loadCryptoWithLibrary L ts).unloaded = true ↔
      (¬ requiredSymbolsResolved (resolveSymbols L (get_crypto_library_version L).ver)
          (get_crypto_library_version L).ver
        ∨ ((get_crypto_library_version L).ver < OPENSSL_VERSION_1_1_0 ∧ ts = false))) ∧
    (requiredSymbolsResolved (resolveSymbols L (get_crypto_library_version L).ver)
        (get_crypto_library_version L).ver →
      (OPENSSL_VERSION_1_1_0 ≤ (get_crypto_library_version L).ver ∨ ts = true) →
      (loadCryptoWithLibrary L ts).ret = (get_crypto_library_version L).ver ∧
        (loadCryptoWithLibrary L ts).unloaded = false) := by
  have hpos := version_pos_of_not_unloaded L hdet
  by_cases hM : missingSymbol (resolveSymbols L (get_crypto_library_version L).ver)
      (get_crypto_library_version L).ver
  · have hr : loadCryptoWithLibrary L ts = ⟨-1, true⟩ := by
      unfold loadCryptoWithLibrary
      simp [hM]
    have hreq : ¬ requiredSymbolsResolved (resolveSymbols L (get_crypto_library_version L).ver)
        (get_crypto_library_version L).ver := by
      rw [← missingSymbol_eq_false_iff]
      simp [hM]
    rw [hr]
    exact ⟨by simp [hreq], fun hq => absurd hq hreq⟩
  · have hM' : missingSymbol (resolveSymbols L (get_crypto_library_version L).ver)
        (get_crypto_library_version L).ver = false := by simpa using hM
    have hreq : requiredSymbolsResolved (resolveSymbols L (get_crypto_library_version L).ver)
        (get_crypto_library_version L).ver := (missingSymbol_eq_false_iff _ _).mp hM'
    by_cases hts : (get_crypto_library_version L).ver < OPENSSL_VERSION_1_1_0 ∧ ts = false
    · have hr : loadCryptoWithLibrary L ts = ⟨-1, true⟩ := by
        unfold loadCryptoWithLibrary
        simp [hM', hts]
      rw [hr]
      constructor
      · exact ⟨fun _ => Or.inr hts, fun _ => ⟨rfl, rfl⟩⟩
      · intro _ hcase
        rcases hcase with hge | htrue
        · exact absurd hge (by omega)
        · rw [htrue] at hts
          exact absurd hts.2 (by simp)
    · have hr : loadCryptoWithLibrary L ts =
          ⟨(get_crypto_library_version L).ver, (get_crypto_library_version L).unloaded⟩ := by
        unfold loadCryptoWithLibrary
        simp [hM', hts]
      rw [hr, hdet]
      constructor
      · constructor
        · intro h
          exact absurd h.2 (by simp)
        · intro h
          rcases h with hq | hq
          · exact absurd hreq hq
          · exact absurd hq hts
      · intro _ _
        exact ⟨rfl, rfl⟩

/-- A concrete application of `spec_C2`: with every symbol resolving and
an OpenSSL 3 version, `loadCrypto` returns the version code. -/
theorem spec_C2_witness :
    (loadCryptoWithLibrary demoLib3 true).ret = 805359616 ∧
    (loadCryptoWithLibrary demoLib3 true).unloaded = false := by
  have h := (spec_C2 demoLib3 true (by decide)).2
    ((missingSymbol_eq_false_iff _ _).mp (by decide)) (Or.inr rfl)
  refine ⟨?_, h.2⟩
  rw [h.1]
  decide

/-- C2 counterexample: for this 1.0.2 library every symbol required for
the detected version resolves, yet `loadCrypto` returns `-1` and unloads
the library when `thread_setup` fails — so "returns `-1` and unloads if
and only if at least one required symbol is unresolved" is false as an
"only if". -/
theorem spec_C2_counterexample :
    (get_crypto_library_version lib102).unloaded = false ∧
    requiredSymbolsResolved (resolveSymbols lib102 (get_crypto_library_version lib102).ver)
      (get_crypto_library_version lib102).ver ∧
    (loadCryptoWithLibrary lib102 false).ret = -1 ∧
    (loadCryptoWithLibrary lib102 false).unloaded = true :=
  ⟨by decide, (missingSymbol_eq_false_iff _ _).mp (by decide), by decide, by decide⟩

theorem foldl_stepUpdate_invariant (alg : DigestAlg) (msgs : List (List Nat)) :
    ∀ st : OpenSSLMDContext, st.cachedInitializedDigestContext = some (initMD alg) →
      st.digestAlg = alg → st.ctx.isSome = true →
      (msgs.foldl stepUpdate st).cachedInitializedDigestContext = some (initMD alg) ∧
        (msgs.foldl stepUpdate st).digestAlg = alg ∧
        (msgs.foldl stepUpdate st).ctx.isSome = true := by
  induction msgs with
  | nil => intro st h1 h2 h3; exact ⟨h1, h2, h3⟩
  | cons m ms ih =>
      intro st h1 h2 h3
      obtain ⟨w, hw⟩ := Option.isSome_iff_exists.mp h3
      have hstep : stepUpdate st m = ⟨some (absorbMD w m), st.digestAlg,
          st.cachedInitializedDigestContext⟩ := by
        simp [stepUpdate, DigestUpdate, hw]
      rw [List.foldl_cons, hstep]
      exact ih _ (by simpa using h1) (by simpa using h2) (by simp)

/-- C6: a digest handle created by `DigestCreateContext` pairs a working
context with a cached copy of the same algorithm's freshly initialized
state; `DigestUpdate` never touches the cached copy; `DigestReset` and a
successful `DigestComputeAndReset` copy the cached initialized context
over the working context, so after create-update*-reset the working
context is the algorithm's initial state again. -/
theorem spec_C6 :
    (∀ (alg : DigestAlg) (o : DigestCreateCalls),
        o.mdCtxNewOk = true → o.digestInitOk = true → o.mallocOk = true →
        o.cachedCtxNewOk = true → o.copyToCacheOk = true →
        DigestCreateContext o none (some alg) =
          (o.contextAddr, some ⟨some (initMD alg), alg, some (initMD alg)⟩)) ∧
    (∀ (alg : DigestAlg) (o : DigestCreateCalls) (cc : OpenSSLMDContext) (src : MDState),
        o.mdCtxNewOk = true → o.digestInitOk = true → o.mallocOk = true →
        o.cachedCtxNewOk = true → o.copyToCacheOk = true → o.copyFromSourceOk = true →
        cc.ctx = some src →
        DigestCreateContext o (some cc) (some alg) =
          (o.contextAddr, some ⟨some src, alg, some (initMD alg)⟩)) ∧
    (∀ (g u : Bool) (c : OpenSSLMDContext) (m : Option (List Nat)) (c2 : OpenSSLMDContext),
        (DigestUpdate g u (some c) m).2 = some c2 →
        c2.cachedInitializedDigestContext = c.cachedInitializedDigestContext ∧
          c2.digestAlg = c.digestAlg) ∧
    (∀ (c : OpenSSLMDContext) (cached : MDState),
        c.ctx.isSome = true → c.cachedInitializedDigestContext = some cached →
        DigestReset true (some c) = (0, some ⟨some cached, c.digestAlg, some cached⟩)) ∧
    (∀ (o : DigestComputeCalls) (c : OpenSSLMDContext) (m : Option (List Nat)) (cached : MDState),
        c.ctx.isSome = true → c.cachedInitializedDigestContext = some cached →
        o.getMsgOk = true → o.updOk = true → o.getDigestOk = true → o.finalOk = true →
        o.copyOk = true →
        DigestComputeAndReset o (some c) m =
          (o.finalSize, some ⟨some cached, c.digestAlg, some cached⟩)) ∧
    (∀ (alg : DigestAlg) (msgs : List (List Nat)),
        DigestReset true
          (some (msgs.foldl stepUpdate ⟨some (initMD alg), alg, some (initMD alg)⟩)) =
          (0, some ⟨some (initMD alg), alg, some (initMD alg)⟩)) := by
  refine ⟨?_, ?_, ?_, ?_, ?_, ?_⟩
  · intro alg o h1 h2 h3 h4 h5
    simp [DigestCreateContext, h1, h2, h3, h4, h5]
  · intro alg o cc src h1 h2 h3 h4 h5 h6 hcc
    simp [DigestCreateContext, h1, h2, h3, h4, h5, h6, hcc]
  · intro g u c m c2 h
    match c, m with
    | c, none => simp [DigestUpdate] at h; subst h; exact ⟨rfl, rfl⟩
    | c, some msg =>
        by_cases hg : g <;> by_cases hu : u <;>
          simp [DigestUpdate, hg, hu] at h <;> subst h <;> exact ⟨rfl, rfl⟩
  · intro c cached hsome hc
    obtain ⟨w, hw⟩ := Option.isSome_iff_exists.mp hsome
    simp [DigestReset, hw, hc]
  · intro o c m cached hsome hc h1 h2 h3 h4 h5
    obtain ⟨w, hw⟩ := Option.isSome_iff_exists.mp hsome
    match m with
    | none => simp [DigestComputeAndReset, hw, hc, h3, h4, h5]
    | some msg => simp [DigestComputeAndReset, hw, hc, h1, h2, h3, h4, h5]
  · intro alg msgs
    have hinv := foldl_stepUpdate_invariant alg msgs
      ⟨some (initMD alg), alg, some (initMD alg)⟩ rfl rfl rfl
    obtain ⟨hcache, halg, hsome⟩ := hinv
    obtain ⟨w, hw⟩ := Option.isSome_iff_exists.mp hsome
    simp [DigestReset, hw, hcache, halg]

/-- A concrete application of `spec_C6`: create, two updates, reset. -/
theorem spec_C6_witness :
    DigestReset true
      (some ([[1, 2], [3]].foldl stepUpdate
        ⟨some (initMD DigestAlg.sha256), DigestAlg.sha256, some (initMD DigestAlg.sha256)⟩)) =
      (0, some ⟨some (initMD DigestAlg.sha256), DigestAlg.sha256,
        some (initMD DigestAlg.sha256)⟩) :=
  spec_C6.2.2.2.2.2 DigestAlg.sha256 [[1, 2], [3]]

/-- A `Bool` that is not `false` is `true`. -/
theorem bool_ne_false (b : Bool) (h : ¬ b = false) : b = true := by
  cases b
  · exact absurd rfl h
  · rfl

/-- C3 (amended): on the crypto bridge operations, checked delegated-call
failures all map to sentinels: `DigestUpdate` returns `-1` when
`EVP_DigestUpdate` does not return 1; `DigestCreateContext` returns `-1`
when context allocation or initialization fails; `GCMDecrypt` returns
`-2` exactly on a tag-verification failure in `DecryptFinal` and `-1`
for every earlier failure; but `CBCInit` ignores the return value of
`EVP_CIPHER_CTX_set_padding`. -/
theorem spec_C3 :
    (∀ (g : Bool) (c : OpenSSLMDContext) (m : List Nat),
        (DigestUpdate g false (some c) (some m)).1 = -1) ∧
    (∀ (o : DigestCreateCalls) (cc : Option OpenSSLMDContext) (a : DigestAlg),
        o.mdCtxNewOk = false ∨ o.digestInitOk = false →
        (DigestCreateContext o cc (some a)).1 = -1) ∧
    (∀ (o : GCMDecryptCalls) (nk ni : Bool) (aadLen inLen tagLen : Int),
        ¬ gcmPriorOk o nk ni aadLen inLen tagLen →
        GCMDecrypt o false nk ni aadLen inLen tagLen = -1) ∧
    (∀ (o : GCMDecryptCalls) (nk ni : Bool) (aadLen inLen tagLen : Int),
        gcmPriorOk o nk ni aadLen inLen tagLen →
        (o.finalRet ≤ 0 → GCMDecrypt o false nk ni aadLen inLen tagLen = -2) ∧
        (0 < o.finalRet → GCMDecrypt o false nk ni aadLen inLen tagLen =
            (if 0 < inLen - tagLen then o.updLen else 0) + o.finalLen)) ∧
    (∀ (o : CBCInitCalls) (doReset : Bool),
        o.cipherInitOk = false → (CBCInit o false doReset).1 = -1) ∧
    (∀ (o : CBCInitCalls) (r : Int) (ctxNull doReset : Bool),
        CBCInit { o with setPaddingRet := r } ctxNull doReset =
          CBCInit o ctxNull doReset) := by
  refine ⟨?_, ?_, ?_, ?_, ?_, ?_⟩
  · intro g c m
    by_cases hg : g <;> simp [DigestUpdate, hg]
  · intro o cc a h
    rcases h with h | h
    · simp [DigestCreateContext, h]
    · by_cases h2 : o.mdCtxNewOk <;> simp [DigestCreateContext, h, h2]
  · intro o nk ni aadLen inLen tagLen h
    unfold gcmPriorOk at h
    unfold GCMDecrypt
    rw [if_neg (by simp : ¬ (false = true))]
    by_cases h1 : nk = true ∧ o.cipherInitOk = false
    · rw [if_pos h1]
    · rw [if_neg h1]
      by_cases h2 : ni = true ∧ o.setIvLenOk = false
      · rw [if_pos h2]
      · rw [if_neg h2]
        by_cases h3 : o.getKeyOk = false
        · rw [if_pos h3]
        · rw [if_neg h3]
          by_cases h4 : o.getIvOk = false
          · rw [if_pos h4]
          · rw [if_neg h4]
            by_cases h5 : o.keyIvInitOk = false
            · rw [if_pos h5]
            · rw [if_neg h5]
              by_cases h6 : 0 < aadLen ∧ o.getAadOk = false
              · rw [if_pos h6]
              · rw [if_neg h6]
                by_cases h7 : 0 < aadLen ∧ o.aadUpdateOk = false
                · rw [if_pos h7]
                · rw [if_neg h7]
                  by_cases h8 : o.getOutOk = false
                  · rw [if_pos h8]
                  · rw [if_neg h8]
                    by_cases h9 : 0 < inLen ∧ o.getInOk = false
                    · rw [if_pos h9]
                    · rw [if_neg h9]
                      by_cases h10 : 0 < inLen - tagLen ∧ o.updOk = false
                      · rw [if_pos h10]
                      · rw [if_neg h10]
                        by_cases h11 : o.setTagOk = false
                        · rw [if_pos h11]
                        · exfalso
                          push_neg at h1 h2 h6 h7 h9 h10
                          apply h
                          exact ⟨fun ha => bool_ne_false _ (h1 ha),
                            fun ha => bool_ne_false _ (h2 ha),
                            bool_ne_false _ h3, bool_ne_false _ h4, bool_ne_false _ h5,
                            fun ha => ⟨bool_ne_false _ (h6 ha), bool_ne_false _ (h7 ha)⟩,
                            bool_ne_false _ h8, fun ha => bool_ne_false _ (h9 ha),
                            fun ha => bool_ne_false _ (h10 ha), bool_ne_false _ h11⟩
  · intro o nk ni aadLen inLen tagLen h
    obtain ⟨c1, c2, c3, c4, c5, c6, c7, c8, c9, c10⟩ := h
    have r1 : ¬ (nk = true ∧ o.cipherInitOk = false) := by
      rintro ⟨ha, hb⟩; rw [c1 ha] at hb; cases hb
    have r2 : ¬ (ni = true ∧ o.setIvLenOk = false) := by
      rintro ⟨ha, hb⟩; rw [c2 ha] at hb; cases hb
    have r6 : ¬ (0 < aadLen ∧ o.getAadOk = false) := by
      rintro ⟨ha, hb⟩; rw [(c6 ha).1] at hb; cases hb
    have r7 : ¬ (0 < aadLen ∧ o.aadUpdateOk = false) := by
      rintro ⟨ha, hb⟩; rw [(c6 ha).2] at hb; cases hb
    have r9 : ¬ (0 < inLen ∧ o.getInOk = false) := by
      rintro ⟨ha, hb⟩; rw [c8 ha] at hb; cases hb
    have r10 : ¬ (0 < inLen - tagLen ∧ o.updOk = false) := by
      rintro ⟨ha, hb⟩; rw [c9 ha] at hb; cases hb
    constructor
    · intro hfin
      unfold GCMDecrypt
      rw [if_neg (by simp : ¬ (false = true)), if_neg r1, if_neg r2,
        if_neg (by simp [c3]), if_neg (by simp [c4]), if_neg (by simp [c5]),
        if_neg r6, if_neg r7, if_neg (by simp [c7]), if_neg r9, if_neg r10,
        if_neg (by simp [c10]), if_neg (by omega)]
    · intro hfin
      unfold GCMDecrypt
      rw [if_neg (by simp : ¬ (false = true)), if_neg r1, if_neg r2,
        if_neg (by simp [c3]), if_neg (by simp [c4]), if_neg (by simp [c5]),
        if_neg r6, if_neg r7, if_neg (by simp [c7]), if_neg r9, if_neg r10,
        if_neg (by simp [c10]), if_pos hfin]
  · intro o doReset h
    simp [CBCInit, h]
  · intro o r ctxNull doReset
    simp [CBCInit]

/-- A concrete application of `spec_C3`. -/
theorem spec_C3_witness :
    GCMDecrypt ⟨true, true, true, true, true, true, true, true, true, true, 5, true, 0, 0⟩
      false true true 4 21 16 = -2 := by
  have hprior : gcmPriorOk
      ⟨true, true, true, true, true, true, true, true, true, true, 5, true, 0, 0⟩
      true true 4 21 16 := by
    unfold gcmPriorOk
    exact ⟨fun _ => rfl, fun _ => rfl, rfl, rfl, rfl, fun _ => ⟨rfl, rfl⟩, rfl,
      fun _ => rfl, fun _ => rfl, rfl⟩
  exact (spec_C3.2.2.2.1 _ true true 4 21 16 hprior).1 (by decide)

/-- C3 counterexample: when `EVP_CIPHER_CTX_set_padding` reports failure
(returns 0, recorded in the oracle), `CBCInit` still invokes it and
returns 0 — a success code, not one of the sentinels `-1`/`-2`. -/
theorem spec_C3_counterexample :
    CBCInit ⟨true, true, true, 0⟩ false false = (0, true) ∧
    (0 : Int) ≠ -1 ∧ (0 : Int) ≠ -2 := by
  refine ⟨by decide, by decide, by decide⟩

/-- C5 (amended): the digest-context and cipher-context operations check
the opaque handle for `NULL` before use and return `-1` (or return
without effect) on a `NULL` handle, and `destroyRSAKey` frees the key
only when it is non-`NULL`; but `RSAEP` performs no `NULL` check on the
RSA key handle and delegates to `RSA_public_decrypt` regardless. -/
theorem spec_C5 :
    (∀ (g u : Bool) (m : Option (List Nat)), DigestUpdate g u none m = (-1, none)) ∧
    (∀ (copyOk : Bool), DigestReset copyOk none = (-1, none)) ∧
    (∀ (o : DigestComputeCalls) (m : Option (List Nat)),
        DigestComputeAndReset o none m = (-1, none)) ∧
    (DigestDestroyContext none = -1) ∧
    (DestroyContext true = -1) ∧
    (∀ (o : CBCInitCalls) (doReset : Bool), CBCInit o true doReset = (-1, false)) ∧
    (∀ (o : GCMDecryptCalls) (nk ni : Bool) (aadLen inLen tagLen : Int),
        GCMDecrypt o true nk ni aadLen inLen tagLen = -1) ∧
    (destroyRSAKey none = false) ∧
    (∀ (o : RSAEPCalls) (key : Option Unit),
        o.getKOk = true → o.getMOk = true → RSAEP o key = (o.pubDecryptRet, true)) ∧
    (∀ (o : RSADPCalls) (key : Option Unit) (k : Nat → Nat) (kLen : Nat) (verify : Int),
        o.getKOk = true → o.getMOk = true → (RSADP o key k kLen verify).2 = true) := by
  refine ⟨?_, ?_, ?_, rfl, rfl, ?_, ?_, rfl, ?_, ?_⟩
  · intro g u m; rfl
  · intro copyOk; rfl
  · intro o m; rfl
  · intro o doReset; simp [CBCInit]
  · intro o nk ni aadLen inLen tagLen; simp [GCMDecrypt]
  · intro o key h1 h2; simp [RSAEP, h1, h2]
  · intro o key k kLen verify h1 h2; simp [RSADP, h1, h2]

/-- A concrete application of `spec_C5`. -/
theorem spec_C5_witness :
    RSAEP ⟨true, true, 17⟩ (some ()) = (17, true) :=
  spec_C5.2.2.2.2.2.2.2.2.1 ⟨true, true, 17⟩ (some ()) rfl rfl

/-- C5 counterexample: `RSAEP` receives a `NULL` RSA key handle, performs
no null check, invokes `RSA_public_decrypt` anyway (second component
`true`), and returns whatever the library returns — here 42, which is
none of the sentinels. -/
theorem spec_C5_counterexample :
    RSAEP ⟨true, true, 42⟩ none = (42, true) ∧ (42 : Int) ≠ -1 ∧ (42 : Int) ≠ -2 :=
  ⟨by decide, by decide, by decide⟩

theorem setupLoop_eq_none (f : Nat → Bool) :
    ∀ (k i : Nat), (∀ j, j < k → f (i + j) = true) → setupLoop f i k = none := by
  intro k
  induction k with
  | zero => intro i _; rfl
  | succ k ih =>
      intro i h
      have h0 : f i = true := by simpa using h 0 (Nat.succ_pos k)
      simp only [setupLoop, h0, if_true]
      exact ih (i + 1) (fun j hj => by
        have := h (j + 1) (Nat.succ_lt_succ hj)
        simpa [Nat.add_assoc, Nat.add_comm 1 j] using this)

theorem setupLoop_eq_some (f : Nat → Bool) :
    ∀ (k i m : Nat), i ≤ m → m < i + k → f m = false →
      (∀ j, i ≤ j → j < m → f j = true) → setupLoop f i k = some m := by
  intro k
  induction k with
  | zero => intro i m h1 h2 _ _; omega
  | succ k ih =>
      intro i m h1 h2 hm hprev
      by_cases hi : i = m
      · subst hi
        simp [setupLoop, hm]
      · have hfi : f i = true := hprev i le_rfl (by omega)
        simp only [setupLoop, hfi, if_true]
        exact ih (i + 1) m (by omega) (by omega) hm
          (fun j hj1 hj2 => hprev j (by omega) hj2)

/-- C7: `thread_setup` allocates exactly one mutex per slot reported by
`CRYPTO_num_locks` and installs the callbacks when every initialization
succeeds; when the initialization of slot `i` is the first to fail, the
`i` already-created mutexes are destroyed, the array is freed and `-1`
is returned; and the installed locking callback acquires slot `type`'s
mutex exactly when the `CRYPTO_LOCK` bit of `mode` is set and releases
that same slot's mutex otherwise. -/
theorem spec_C7 :
    (∀ o : ThreadSetupCalls, o.mallocOk = true →
        (∀ i, i < o.lockNum.toNat → o.initOk i = true) →
        thread_setup o = ⟨0, some o.lockNum.toNat, 0, true⟩) ∧
    (∀ (o : ThreadSetupCalls) (i : Nat), o.mallocOk = true →
        i < o.lockNum.toNat → o.initOk i = false →
        (∀ j, j < i → o.initOk j = true) →
        thread_setup o = ⟨-1, none, i, false⟩) ∧
    (∀ o : ThreadSetupCalls, o.mallocOk = false →
        thread_setup o = ⟨-1, none, 0, false⟩) ∧
    (∀ mode slotType : Int, Int.land mode CRYPTO_LOCK ≠ 0 →
        pthreads_locking_callback mode slotType = LockAction.lock slotType) ∧
    (∀ mode slotType : Int, Int.land mode CRYPTO_LOCK = 0 →
        pthreads_locking_callback mode slotType = LockAction.unlock slotType) := by
  refine ⟨?_, ?_, ?_, ?_, ?_⟩
  · intro o hm hinit
    have hl : setupLoop o.initOk 0 o.lockNum.toNat = none :=
      setupLoop_eq_none o.initOk o.lockNum.toNat 0 (fun j hj => by simpa using hinit j hj)
    simp [thread_setup, hm, hl]
  · intro o i hm hi hfail hprev
    have hl : setupLoop o.initOk 0 o.lockNum.toNat = some i :=
      setupLoop_eq_some o.initOk o.lockNum.toNat 0 i (Nat.zero_le i) (by omega) hfail
        (fun j _ hj => hprev j hj)
    simp [thread_setup, hm, hl]
  · intro o hm
    simp [thread_setup, hm]
  · intro mode slotType h
    simp [pthreads_locking_callback, h]
  · intro mode slotType h
    simp [pthreads_locking_callback, h]

/-- A concrete application of `spec_C7`: 40 slots, third initialization
fails, so exactly two mutexes are destroyed and the array is freed. -/
theorem spec_C7_witness :
    thread_setup ⟨40, true, fun i => decide (i ≠ 2)⟩ = ⟨-1, none, 2, false⟩ :=
  spec_C7.2.1 ⟨40, true, fun i => decide (i ≠ 2)⟩ 2 rfl (by decide) (by decide)
    (fun j hj => by
      have : j ≠ 2 := by omega
      simp [this])

end NativeCrypto

namespace PollsetArrayWrapper

/-- C4 (amended): in the AIX pollset wrapper a call that fails with
`EINTR` *is* reissued — `RESTARTABLE` repeats the call while the result
is `-1` with `errno == EINTR` and returns the first other outcome — and
`pollsetBulkCtl` keeps calling `pollset_ctl` with the remaining elements
after a partial failure (same element on `EINTR`, element skipped on
other `-1`, `r + 1` elements skipped on a positive return `r`); any
other failed call is returned without retry. -/
theorem spec_C4 :
    (∀ (pre : List CallOutcome) (o : CallOutcome) (rest : List CallOutcome),
        (∀ p ∈ pre, p.res = -1 ∧ p.isEINTR = true) →
        ¬ (o.res = -1 ∧ o.isEINTR = true) →
        RESTARTABLE (pre ++ o :: rest) = some (o.res, pre.length + 1)) ∧
    (∀ (o : CallOutcome) (rest : List CallOutcome), ¬ (o.res = -1 ∧ o.isEINTR = true) →
        RESTARTABLE (o :: rest) = some (o.res, 1)) ∧
    (∀ (o : CallOutcome) (rest : List CallOutcome) (count res : Int),
        0 < count → o.res = -1 → o.isEINTR = true →
        bulkCtlLoop (o :: rest) count res =
          Option.map (fun p => (p.1, p.2 + 1)) (bulkCtlLoop rest count (-1))) ∧
    (∀ (o : CallOutcome) (rest : List CallOutcome) (count res : Int),
        0 < count → o.res = -1 → o.isEINTR = false →
        bulkCtlLoop (o :: rest) count res =
          Option.map (fun p => (p.1, p.2 + 1)) (bulkCtlLoop rest (count - 1) (-1))) ∧
    (∀ (o : CallOutcome) (rest : List CallOutcome) (count res : Int),
        0 < count → 0 < o.res →
        bulkCtlLoop (o :: rest) count res =
          Option.map (fun p => (p.1, p.2 + 1)) (bulkCtlLoop rest (count - (o.res + 1)) o.res)) := by
  refine ⟨?_, ?_, ?_, ?_, ?_⟩
  · intro pre
    induction pre with
    | nil =>
        intro o rest _ ho
        simp [RESTARTABLE, ho]
    | cons p ps ih =>
        intro o rest hpre ho
        have hp := hpre p (List.mem_cons_self p ps)
        have hrec := ih o rest (fun q hq => hpre q (List.mem_cons_of_mem p hq)) ho
        simp only [List.cons_append, RESTARTABLE, hp.1, hp.2, and_self, if_true]
        rw [show ps.append (o :: rest) = ps ++ o :: rest from rfl, hrec]
        simp
  · intro o rest ho
    simp [RESTARTABLE, ho]
  · intro o rest count res hc hr he
    rw [bulkCtlLoop, if_neg (by omega), if_neg (by omega), if_pos hr, hr, if_pos he]
  · intro o rest count res hc hr he
    rw [bulkCtlLoop, if_neg (by omega), if_neg (by omega), if_pos hr, hr]
    simp [he]
  · intro o rest count res hc hr
    rw [bulkCtlLoop, if_neg (by omega), if_neg (by omega), if_neg (by omega)]

/-- A concrete application of `spec_C4`: two `EINTR` failures, then
success on the third issue of the same call. -/
theorem spec_C4_witness :
    RESTARTABLE [⟨-1, true⟩, ⟨-1, true⟩, ⟨7, false⟩] = some (7, 3) :=
  spec_C4.1 [⟨-1, true⟩, ⟨-1, true⟩] ⟨7, false⟩ [] (by decide) (by decide)

/-- C4 counterexample: the first `pollset_ctl`/`pollset_poll` invocation
fails (returns `-1` with `errno == EINTR`) and `RESTARTABLE` reissues
the call — two invocations for one wrapped operation, refuting
"a native call that returns a failure code is never reissued". -/
theorem spec_C4_counterexample :
    RESTARTABLE [⟨-1, true⟩, ⟨0, false⟩] = some (0, 2) ∧ (2 : Nat) ≠ 1 :=
  ⟨by decide, by decide⟩

end PollsetArrayWrapper

namespace NativeCrypto

theorem bytesDiffer_eq_true_iff (a b : Nat → Nat) (n : Nat) :
    bytesDiffer a b n = true ↔ ∃ i, i < n ∧ a i ≠ b i := by
  simp [bytesDiffer, List.any_eq_true, List.mem_range]

/-- C8: with `verify != -1` and a successful private-key operation,
`RSADP` returns `-2` when `verify` is neither `kLen` nor `kLen + 1`;
for `verify == kLen` it returns `-2` exactly when the public
re-decryption differs from `k` at some position, and the private result
otherwise; for `verify == kLen + 1` it returns `-2` exactly when the
first re-decrypted byte is nonzero or the remaining bytes differ from
`k`, and the private result otherwise; a failed `malloc` or public
re-decryption yields `-1`. -/
theorem spec_C8 (o : RSADPCalls) (key : Option Unit) (k : Nat → Nat) (kLen : Nat)
    (verify : Int) (hgk : o.getKOk = true) (hgm : o.getMOk = true)
    (hverify : verify ≠ -1) (hpriv : 0 ≤ o.privRet) :
    (verify ≠ (kLen : Int) ∧ verify ≠ (kLen : Int) + 1 →
        (RSADP o key k kLen verify).1 = -2) ∧
    ((verify = (kLen : Int) ∨ verify = (kLen : Int) + 1) → o.mallocOk = false →
        (RSADP o key k kLen verify).1 = -1) ∧
    ((verify = (kLen : Int) ∨ verify = (kLen : Int) + 1) → o.mallocOk = true →
        o.pubRet = -1 → (RSADP o key k kLen verify).1 = -1) ∧
    (verify = (kLen : Int) → o.mallocOk = true → o.pubRet ≠ -1 →
        (((RSADP o key k kLen verify).1 = -2 ↔ ∃ i, i < kLen ∧ k i ≠ o.k2 i) ∧
          (¬ (∃ i, i < kLen ∧ k i ≠ o.k2 i) → (RSADP o key k kLen verify).1 = o.privRet))) ∧
    (verify = (kLen : Int) + 1 → o.mallocOk = true → o.pubRet ≠ -1 →
        (((RSADP o key k kLen verify).1 = -2 ↔
            (o.k2 0 ≠ 0 ∨ ∃ i, i < kLen ∧ k i ≠ o.k2 (i + 1))) ∧
          (o.k2 0 = 0 → ¬ (∃ i, i < kLen ∧ k i ≠ o.k2 (i + 1)) →
            (RSADP o key k kLen verify).1 = o.privRet))) := by
  have hne : o.privRet ≠ -1 := by omega
  have hne2 : o.privRet ≠ -2 := by omega
  have hcond : verify ≠ -1 ∧ o.privRet ≠ -1 := ⟨hverify, hne⟩
  have hfst : (RSADP o key k kLen verify).1 = rsadpResult o k kLen verify := by
    simp [RSADP, hgk, hgm]
  refine ⟨?_, ?_, ?_, ?_, ?_⟩
  · intro h
    rw [hfst]
    unfold rsadpResult
    rw [if_pos hcond, if_neg (by tauto : ¬ (verify = (kLen : Int) ∨
      verify = (kLen : Int) + 1))]
  · intro h hmal
    rw [hfst]
    unfold rsadpResult
    rw [if_pos hcond, if_pos h, if_neg (by simp [hmal])]
  · intro h hmal hpub
    rw [hfst]
    unfold rsadpResult
    rw [if_pos hcond, if_pos h, if_pos hmal, if_neg (by simp [hpub])]
  · intro hv hmal hpub
    have hne1 : ¬ (verify = (kLen : Int) + 1) := by omega
    have hvn : verify.toNat = kLen := by omega
    have hred : (RSADP o key k kLen verify).1 =
        (if bytesDiffer k o.k2 kLen = true then -2 else o.privRet) := by
      rw [hfst]
      unfold rsadpResult
      rw [if_pos hcond, if_pos (Or.inl hv), if_pos hmal, if_pos hpub, if_neg hne1, hvn]
    rw [hred]
    by_cases hd : bytesDiffer k o.k2 kLen = true
    · rw [if_pos hd]
      have hex := (bytesDiffer_eq_true_iff k o.k2 kLen).mp hd
      exact ⟨⟨fun _ => hex, fun _ => rfl⟩, fun hnex => absurd hex hnex⟩
    · rw [if_neg hd]
      have hnex : ¬ ∃ i, i < kLen ∧ k i ≠ o.k2 i := fun hex =>
        hd ((bytesDiffer_eq_true_iff k o.k2 kLen).mpr hex)
      exact ⟨⟨fun habs => absurd habs hne2, fun hex => absurd hex hnex⟩, fun _ => rfl⟩
  · intro hv hmal hpub
    have hred : (RSADP o key k kLen verify).1 =
        (if o.k2 0 ≠ 0 then -2
         else if bytesDiffer k (fun i => o.k2 (i + 1)) kLen = true then -2
         else o.privRet) := by
      rw [hfst]
      unfold rsadpResult
      rw [if_pos hcond, if_pos (Or.inr hv), if_pos hmal, if_pos hpub, if_pos hv]
    rw [hred]
    by_cases hz : o.k2 0 ≠ 0
    · rw [if_pos hz]
      exact ⟨⟨fun _ => Or.inl hz, fun _ => rfl⟩, fun hz0 _ => absurd hz0 hz⟩
    · rw [if_neg hz]
      push_neg at hz
      by_cases hd : bytesDiffer k (fun i => o.k2 (i + 1)) kLen = true
      · rw [if_pos hd]
        have hex := (bytesDiffer_eq_true_iff k (fun i => o.k2 (i + 1)) kLen).mp hd
        exact ⟨⟨fun _ => Or.inr hex, fun _ => rfl⟩, fun _ hnex => absurd hex hnex⟩
      · rw [if_neg hd]
        have hnex : ¬ ∃ i, i < kLen ∧ k i ≠ o.k2 (i + 1) := fun hex =>
          hd ((bytesDiffer_eq_true_iff k (fun i => o.k2 (i + 1)) kLen).mpr hex)
        refine ⟨⟨fun habs => absurd habs hne2, fun hor => ?_⟩, fun _ _ => rfl⟩
        rcases hor with h0 | hex
        · exact absurd hz h0
        · exact absurd hex hnex

/-- A concrete application of `spec_C8`: `verify == kLen`, equal buffers,
so the private operation result is returned. -/
theorem spec_C8_witness :
    (RSADP ⟨true, true, 5, true, 4, fun _ => 9⟩ (some ()) (fun _ => 9) 4 4).1 = 5 :=
  ((spec_C8 ⟨true, true, 5, true, 4, fun _ => 9⟩ (some ()) (fun _ => 9) 4 4
      rfl rfl (by decide) (by decide)).2.2.2.1 (by decide) rfl (by decide)).2
    (by rintro ⟨i, -, hne⟩; exact hne rfl)

set_option maxRecDepth 4000 in
theorem xor255_eq (b : Nat) (hb : b < 256) : b ^^^ 255 = 255 - b := by
  have h : ∀ x, x < 256 → x ^^^ 255 = 255 - x := by decide
  exact h b hb

set_option maxRecDepth 4000 in
theorem and128_ne_zero_iff (b : Nat) (hb : b < 256) : b &&& 128 ≠ 0 ↔ 128 ≤ b := by
  have h : ∀ x, x < 256 → (x &&& 128 ≠ 0 ↔ 128 ≤ x) := by decide
  exact h b hb

/-- Byte-level two's-complement negation computes `2^(8n) - value`
(with carry-out exactly on value 0), preserving the length. -/
theorem negateBytes_spec : ∀ bs : List Nat, (∀ b ∈ bs, b < 256) →
    (((negateBytes bs).2 = true) ↔ beValue bs = 0) ∧
    (beValue (negateBytes bs).1 + beValue bs =
      (if beValue bs = 0 then 0 else 256 ^ bs.length)) ∧
    ((negateBytes bs).1.length = bs.length) := by
  intro bs
  induction bs with
  | nil =>
      intro _
      exact ⟨by simp [negateBytes, beValue], by simp [negateBytes, beValue], rfl⟩
  | cons b bs ih =>
      intro hb
      have hblt : b < 256 := hb b (List.mem_cons_self b bs)
      obtain ⟨ihc, ihv, ihl⟩ := ih (fun x hx => hb x (List.mem_cons_of_mem b hx))
      have hf : b ^^^ 255 = 255 - b := xor255_eq b hblt
      by_cases hc : (negateBytes bs).2 = true
      · have hN : beValue bs = 0 := ihc.mp hc
        have hv0 : beValue (negateBytes bs).1 = 0 := by
          have h2 := ihv
          rw [hN, if_pos rfl] at h2
          omega
        have hstep : negateBytes (b :: bs) =
            (((255 - b + 1) % 256) :: (negateBytes bs).1, ((255 - b + 1) % 256 == 0)) := by
          simp [negateBytes, hc, hf]
        by_cases hb0 : b = 0
        · subst hb0
          refine ⟨?_, ?_, ?_⟩
          · rw [hstep]
            simp [beValue, hN]
          · rw [hstep]
            simp [beValue, hN, hv0]
          · rw [hstep]
            simp [ihl]
        · have hmod : (255 - b + 1) % 256 = 256 - b := by omega
          have hmulne : b * 256 ^ bs.length ≠ 0 := by
            have hP : 0 < 256 ^ bs.length := pow_pos (by norm_num) bs.length
            intro h
            rcases Nat.mul_eq_zero.mp h with h1 | h1
            · exact hb0 h1
            · omega
          refine ⟨?_, ?_, ?_⟩
          · rw [hstep]
            simp only [hmod, beValue, hN, Nat.add_zero]
            constructor
            · intro h
              have h2 : 256 - b = 0 := by
                have := beq_iff_eq.mp h
                omega
              omega
            · intro h
              exact absurd h hmulne
          · rw [hstep]
            simp only [beValue, ihl, hv0, hN, hmod, Nat.add_zero, List.length_cons]
            rw [if_neg hmulne, ← Nat.add_mul, Nat.sub_add_cancel (by omega : b ≤ 256),
              pow_succ]
            ring
          · rw [hstep]
            simp [ihl]
      · have hc' : (negateBytes bs).2 = false := by
          rcases Bool.eq_false_or_eq_true (negateBytes bs).2 with h | h
          · exact absurd h hc
          · exact h
        have hN : beValue bs ≠ 0 := fun h => hc (ihc.mpr h)
        have hvP : beValue (negateBytes bs).1 + beValue bs = 256 ^ bs.length := by
          have h2 := ihv
          rw [if_neg hN] at h2
          exact h2
        have hstep : negateBytes (b :: bs) = ((255 - b) :: (negateBytes bs).1, false) := by
          simp [negateBytes, hc', hf]
        have hcond : b * 256 ^ bs.length + beValue bs ≠ 0 := by
          intro h
          exact hN (Nat.eq_zero_of_add_eq_zero_left h)
        refine ⟨?_, ?_, ?_⟩
        · rw [hstep]
          simp only [beValue]
          constructor
          · intro h; cases h
          · intro h; exact absurd h hcond
        · rw [hstep]
          simp only [beValue, ihl, List.length_cons]
          rw [if_neg hcond]
          have h1 : (255 - b) * 256 ^ bs.length + beValue (negateBytes bs).1 +
              (b * 256 ^ bs.length + beValue bs) =
              ((255 - b) + b) * 256 ^ bs.length +
                (beValue (negateBytes bs).1 + beValue bs) := by
            ring
          rw [h1, Nat.sub_add_cancel (by omega : b ≤ 255), hvP, pow_succ]
          ring
        · rw [hstep]
          simp [ihl]

/-- C10: for every nonempty byte buffer, `convertJavaBItoBN` produces a
BIGNUM equal to the buffer's two's-complement value: the buffer passes
through unchanged when the top bit of the first byte is clear, and is
flipped-and-incremented into the magnitude `|v|` with the negative flag
set when the top bit is set. -/
theorem spec_C10 (bs : List Nat) (hlen : bs ≠ []) (hbytes : ∀ b ∈ bs, b < 256) :
    (convertJavaBItoBN true bs).1 = some (twosComplementValue bs) ∧
    (convertJavaBItoBN true bs).2 =
      (if (bs.headD 0) &&& 128 ≠ 0 then (negateBytes bs).1 else bs) ∧
    (convertJavaBItoBN true bs).2.length = bs.length := by
  obtain ⟨b0, rest, rfl⟩ : ∃ b0 rest, bs = b0 :: rest := by
    cases bs with
    | nil => exact absurd rfl hlen
    | cons x xs => exact ⟨x, xs, rfl⟩
  have hb0lt : b0 < 256 := hbytes b0 (List.mem_cons_self b0 rest)
  obtain ⟨-, hval, hlen2⟩ := negateBytes_spec (b0 :: rest) hbytes
  by_cases hneg : b0 &&& 128 ≠ 0
  · have hneg' : (b0 :: rest).headD 0 &&& 128 ≠ 0 := by simpa using hneg
    have hge : 128 ≤ b0 := (and128_ne_zero_iff b0 hb0lt).mp hneg
    have hpos : beValue (b0 :: rest) ≠ 0 := by
      have hP : 0 < 256 ^ rest.length := pow_pos (by norm_num) rest.length
      have hmul : 128 * 256 ^ rest.length ≤ b0 * 256 ^ rest.length :=
        Nat.mul_le_mul_right _ hge
      simp only [beValue]
      omega
    rw [if_neg hpos] at hval
    have hcast : (-(beValue (negateBytes (b0 :: rest)).1 : Int)) =
        (beValue (b0 :: rest) : Int) - (256 : Int) ^ (b0 :: rest).length := by
      have h2 := congrArg (fun n : Nat => (n : Int)) hval
      push_cast at h2
      linarith
    have hfst : (convertJavaBItoBN true (b0 :: rest)).1 =
        some (-(beValue (negateBytes (b0 :: rest)).1 : Int)) := by
      simp [convertJavaBItoBN, hneg]
    have hsnd : (convertJavaBItoBN true (b0 :: rest)).2 = (negateBytes (b0 :: rest)).1 := by
      simp [convertJavaBItoBN, hneg]
    refine ⟨?_, ?_, ?_⟩
    · rw [hfst, hcast]
      simp [twosComplementValue, hneg]
    · rw [hsnd, if_pos hneg']
    · rw [hsnd]
      simpa using hlen2
  · have hneg' : ¬ ((b0 :: rest).headD 0 &&& 128 ≠ 0) := by simpa using hneg
    have hz : b0 &&& 128 = 0 := by
      by_contra hzz
      exact hneg hzz
    refine ⟨?_, ?_, ?_⟩
    · simp [convertJavaBItoBN, twosComplementValue, hz]
    · simp [convertJavaBItoBN, hz, hneg']
    · simp [convertJavaBItoBN, hz]

/-- A concrete application of `spec_C10`: the two-byte buffer
`0xFF 0xFE` (two's complement `-2`) is converted to the BIGNUM `-2`. -/
theorem spec_C10_witness :
    (convertJavaBItoBN true [255, 254]).1 = some (-2) := by
  have h := (spec_C10 [255, 254] (by decide) (by decide)).1
  rw [h]
  decide

end NativeCrypto
